import Mathlib

/-!
# ZMap MP-TCP SYN probe module and monitor: a shallow embedding

Sources embedded here:

* `src/probe_modules/module_mptcp_synscan.c` (the MP_CAPABLE SYN probe module),
* `src/monitor.c` (the status monitor).

Conventions.

* A buffer is byte-addressed memory relative to the pointer the C code holds
  (`Mem`).  Every read reduces the cell modulo 256, so any function
  `Nat → Nat` is a well-formed buffer.
* Unsigned machine integers are naturals with explicit `% 2^w`.
* The host byte order is an explicit parameter `le` (`true` on a
  little-endian host); multi-byte struct members are loaded and stored in host
  order, as the C code does, and `htons`/`htonl` swap exactly when `le`.
* Struct layouts are the ones of `<netinet/ip.h>`, `<netinet/tcp.h>`,
  `<net/ethernet.h>` and the packed `struct mp_capable` of the source.
-/

namespace ZMap

/-! ## Machine integers and byte order -/

/-- Truncation to `uint16_t`. -/
def u16 (x : Nat) : Nat := x % 65536

/-- Truncation to `uint32_t`. -/
def u32 (x : Nat) : Nat := x % 4294967296

/-- Truncation to `uint64_t`. -/
def u64 (x : Nat) : Nat := x % 18446744073709551616

/-- Conversion of a C `int` expression to `uint32_t`. -/
def u32OfInt (x : Int) : Nat := (x % 4294967296).toNat

/-- Byte swap of a 16-bit value. -/
def bswap16 (x : Nat) : Nat := (x % 256) * 256 + (x / 256) % 256

/-- Byte swap of a 32-bit value. -/
def bswap32 (x : Nat) : Nat :=
  (x % 256) * 16777216 + ((x / 256) % 256) * 65536 + ((x / 65536) % 256) * 256
    + (x / 16777216) % 256

/-- The libc `htons` on a host whose byte order is given by `le`. -/
def htons (le : Bool) (x : Nat) : Nat := if le then bswap16 x else u16 x

/-- The libc `ntohs`: the same function as `htons`. -/
def ntohs (le : Bool) (x : Nat) : Nat := htons le x

/-- The libc `htonl` on a host whose byte order is given by `le`. -/
def htonl (le : Bool) (x : Nat) : Nat := if le then bswap32 x else u32 x

/-- The libc `ntohl`: the same function as `htonl`. -/
def ntohl (le : Bool) (x : Nat) : Nat := htonl le x

/-! ## Byte-addressed memory -/

/-- Memory relative to a base pointer: the cell at each byte offset. -/
abbrev Mem := Nat → Nat

/-- Load of one byte. -/
def rd8 (m : Mem) (a : Nat) : Nat := m a % 256

/-- Load of a `uint16_t` member in host byte order. -/
def rd16 (le : Bool) (m : Mem) (a : Nat) : Nat :=
  if le then rd8 m a + 256 * rd8 m (a + 1) else 256 * rd8 m a + rd8 m (a + 1)

/-- Load of a `uint32_t` member in host byte order. -/
def rd32 (le : Bool) (m : Mem) (a : Nat) : Nat :=
  if le then
    rd8 m a + 256 * rd8 m (a + 1) + 65536 * rd8 m (a + 2) + 16777216 * rd8 m (a + 3)
  else
    16777216 * rd8 m a + 65536 * rd8 m (a + 1) + 256 * rd8 m (a + 2) + rd8 m (a + 3)

/-- The 16-bit number that the two bytes at `a` spell on the wire (big-endian). -/
def be16 (m : Mem) (a : Nat) : Nat := 256 * rd8 m a + rd8 m (a + 1)

/-- The 32-bit number that the four bytes at `a` spell on the wire (big-endian). -/
def be32 (m : Mem) (a : Nat) : Nat :=
  16777216 * rd8 m a + 65536 * rd8 m (a + 1) + 256 * rd8 m (a + 2) + rd8 m (a + 3)

/-- Store of one byte. -/
def wr8 (m : Mem) (a v : Nat) : Mem := fun i => if i = a then v % 256 else m i

/-- Byte `k` (0 = least significant) of a value. -/
def byteOf (v k : Nat) : Nat := (v / 256 ^ k) % 256

/-- Store of an `n`-byte unsigned member in host byte order. -/
def wrN (le : Bool) (n : Nat) (m : Mem) (a v : Nat) : Mem :=
  fun i =>
    if a ≤ i ∧ i < a + n then
      (if le then byteOf v (i - a) else byteOf v (n - 1 - (i - a)))
    else m i

/-- A memory given by its first bytes, zero beyond them. -/
def memOfList (l : List Nat) : Mem := fun i => l.getD i 0

/-! ## Header layouts and constants -/

/-- The size of `struct ether_header`. -/
def sizeof_ether_header : Nat := 14
/-- The size of `struct ip`. -/
def sizeof_ip : Nat := 20
/-- The size of `struct tcphdr`. -/
def sizeof_tcphdr : Nat := 20
/-- The protocol number of TCP. -/
def IPPROTO_TCP : Nat := 6
/-- The TCP flag bit SYN. -/
def TH_SYN : Nat := 2
/-- The TCP flag bit RST. -/
def TH_RST : Nat := 4
/-- The TCP option kind of MP-TCP. -/
def TCPOPT_MPTCP : Nat := 30
/-- The MP_CAPABLE subtype. -/
def MPTCP_SUB_CAPABLE : Nat := 0
/-- The length of the MP_CAPABLE option of a SYN. -/
def MPTCP_SUB_LEN_CAPABLE_SYN : Nat := 12
/-- Modelled from the spec: the macro `MAX_PACKET_SIZE` of `packet.h`, which is
not among the sources: the fixed capacity of a packet buffer. -/
def MAX_PACKET_SIZE : Nat := 4096

/-- Offset of `ip_hl`/`ip_v` in `struct ip` (`ip_hl` is the low nibble). -/
def off_ip_vhl : Nat := 0
/-- Offset of `ip_len` in `struct ip`. -/
def off_ip_len : Nat := 2
/-- Offset of `ip_p` in `struct ip`. -/
def off_ip_p : Nat := 9
/-- Offset of `ip_sum` in `struct ip`. -/
def off_ip_sum : Nat := 10
/-- Offset of `ip_src` in `struct ip`. -/
def off_ip_src : Nat := 12
/-- Offset of `ip_dst` in `struct ip`. -/
def off_ip_dst : Nat := 16
/-- Offset of `th_sport` in `struct tcphdr`. -/
def off_th_sport : Nat := 0
/-- Offset of `th_dport` in `struct tcphdr`. -/
def off_th_dport : Nat := 2
/-- Offset of `th_seq` in `struct tcphdr`. -/
def off_th_seq : Nat := 4
/-- Offset of `th_ack` in `struct tcphdr`. -/
def off_th_ack : Nat := 8
/-- Offset of `th_x2`/`th_off` in `struct tcphdr` (`th_off` is the high nibble). -/
def off_th_offx2 : Nat := 12
/-- Offset of `th_flags` in `struct tcphdr`. -/
def off_th_flags : Nat := 13
/-- Offset of `th_win` in `struct tcphdr`. -/
def off_th_win : Nat := 14
/-- Offset of `th_sum` in `struct tcphdr`. -/
def off_th_sum : Nat := 16

/-- The member `ip_hl` of the `struct ip` at offset `ip`. -/
def ip_hl (m : Mem) (ip : Nat) : Nat := rd8 m (ip + off_ip_vhl) % 16

/-- The member `ip_p` of the `struct ip` at offset `ip`. -/
def ip_p (m : Mem) (ip : Nat) : Nat := rd8 m (ip + off_ip_p)

/-- The member `th_off` of the `struct tcphdr` at offset `tcp`. -/
def th_off (m : Mem) (tcp : Nat) : Nat := rd8 m (tcp + off_th_offx2) / 16

/-- The member `th_flags` of the `struct tcphdr` at offset `tcp`. -/
def th_flags (m : Mem) (tcp : Nat) : Nat := rd8 m (tcp + off_th_flags)

/-! ## Configuration -/

/-- The members of the global `zconf` that the two sources read. -/
structure state_conf where
  target_port : Nat
  source_port_first : Nat
  source_port_last : Nat
  cooldown_secs : Int
  max_runtime : Nat
  max_results : Nat
  app_success_index : Int
  quiet : Bool

/-- A validation vector: `validation i` is the C `validation[i]`, read as `uint32_t`. -/
abbrev Validation := Nat → Nat

/-- Function `synscan_global_initialize_mp`: the value it leaves in the static
`num_ports` (`uint32_t`, assigned from an `int` expression over the two
`uint16_t` port bounds). -/
def synscan_global_initialize_mp (state : state_conf) : Nat :=
  u32OfInt ((u16 state.source_port_last : Int) - (u16 state.source_port_first : Int) + 1)

/-- Modelled from the spec: `get_src_port` of `packet.h`, which is not among the
sources.  The spec asks for a deterministic mapping of
`(num_source_ports, probe_index, validation_vector)` onto one configured source
port that is a bijection over `[0, num_source_ports)`: the probe index is
rotated by a validation word inside the configured range. -/
def get_src_port (c : state_conf) (num_ports probe_num : Nat) (validation : Validation) : Nat :=
  u16 (u16 c.source_port_first + (u32 (validation 1) + probe_num) % num_ports)

/-- Modelled from the spec: the inverse direction of the port-derivation
function, from a port of the configured range back to a probe index. -/
def port_probe_index (c : state_conf) (port num_ports : Nat) (validation : Validation) : Nat :=
  ((port - u16 c.source_port_first) + (num_ports - u32 (validation 1) % num_ports)) % num_ports

/-- Modelled from the spec: `check_dst_port` of `packet.h`, which is not among
the sources.  A destination port is accepted when it lies in the configured
source-port range and inverse-maps to an in-range probe index. -/
def check_dst_port (c : state_conf) (port num_ports : Nat) (validation : Validation) : Nat :=
  if port < u16 c.source_port_first ∨ u16 c.source_port_last < port then 0
  else if port_probe_index c port num_ports validation < num_ports then 1
  else 0

/-! ## Function `synscan_validate_mppacket` -/

/-- Function `synscan_validate_mppacket`, instrumented: the result together with
the offsets (relative to `ip_hdr`) of the packet bytes read, in program order.
`m` is the memory at `ip_hdr`, `len` the declared length. -/
def synscan_validate_mppacket_run (le : Bool) (c : state_conf) (num_ports : Nat)
    (m : Mem) (len : Nat) (validation : Validation) : Nat × List Nat :=
  -- if (ip_hdr->ip_p != IPPROTO_TCP) return 0;
  let r1 := [off_ip_p]
  if ip_p m 0 ≠ IPPROTO_TCP then (0, r1) else
  -- if ((4*ip_hdr->ip_hl + sizeof(struct tcphdr)) > len) return 0;
  let r2 := r1 ++ [off_ip_vhl]
  if 4 * ip_hl m 0 + sizeof_tcphdr > len then (0, r2) else
  -- struct tcphdr *tcp = (struct tcphdr*)((char *) ip_hdr + 4*ip_hdr->ip_hl);
  let tcp := 4 * ip_hl m 0
  let r3 := r2 ++ [off_ip_vhl]
  -- uint16_t sport = tcp->th_sport; uint16_t dport = tcp->th_dport;
  let sport := rd16 le m (tcp + off_th_sport)
  let dport := rd16 le m (tcp + off_th_dport)
  let r4 := r3 ++ [tcp + off_th_sport, tcp + off_th_sport + 1,
                   tcp + off_th_dport, tcp + off_th_dport + 1]
  -- if (ntohs(sport) != zconf.target_port) return 0;
  if ntohs le sport ≠ u16 c.target_port then (0, r4) else
  -- if (!check_dst_port(ntohs(dport), num_ports, validation)) return 0;
  if check_dst_port c (ntohs le dport) num_ports validation = 0 then (0, r4) else
  -- if (htonl(tcp->th_ack) != htonl(validation[0])+1) return 0;
  let r5 := r4 ++ [tcp + off_th_ack, tcp + off_th_ack + 1,
                   tcp + off_th_ack + 2, tcp + off_th_ack + 3]
  if htonl le (rd32 le m (tcp + off_th_ack)) ≠ u32 (htonl le (u32 (validation 0)) + 1)
  then (0, r5) else
  (1, r5)

/-- Function `synscan_validate_mppacket`: 1 to accept the response, 0 to reject it. -/
def synscan_validate_mppacket (le : Bool) (c : state_conf) (num_ports : Nat)
    (m : Mem) (len : Nat) (validation : Validation) : Nat :=
  (synscan_validate_mppacket_run le c num_ports m len validation).1

/-- The packet offsets that `synscan_validate_mppacket` reads, in program order. -/
def synscan_validate_mppacket_reads (le : Bool) (c : state_conf) (num_ports : Nat)
    (m : Mem) (len : Nat) (validation : Validation) : List Nat :=
  (synscan_validate_mppacket_run le c num_ports m len validation).2

/-! ## Packet buffers under construction -/

/-- A packet buffer being written: its memory and the offsets stored to so far,
oldest first. -/
structure Pkt where
  mem : Mem
  written : List Nat

/-- Store of one byte into a packet buffer. -/
def st8 (p : Pkt) (a v : Nat) : Pkt :=
  { mem := wr8 p.mem a v, written := p.written ++ [a] }

/-- Store of an `n`-byte unsigned member, in host byte order, into a packet buffer. -/
def stN (le : Bool) (n : Nat) (p : Pkt) (a v : Nat) : Pkt :=
  { mem := wrN le n p.mem a v, written := p.written ++ (List.range n).map (fun k => a + k) }

/-- Store into a bit-field of `w` bits that starts at bit `s` of the byte at `a`. -/
def stBits (p : Pkt) (a s w v : Nat) : Pkt :=
  let old := rd8 p.mem a
  st8 p a (old % 2 ^ s + (v % 2 ^ w) * 2 ^ s + (old / 2 ^ (s + w)) * 2 ^ (s + w))

/-- Copy of a byte string into a packet buffer. -/
def stBytes (p : Pkt) (a : Nat) (l : List Nat) : Pkt :=
  { mem := fun i => if a ≤ i ∧ i < a + l.length then l.getD (i - a) 0 % 256 else p.mem i,
    written := p.written ++ (List.range l.length).map (fun k => a + k) }

/-- The libc `memset(buf, v, n)`. -/
def memset (p : Pkt) (v n : Nat) : Pkt :=
  { mem := fun i => if i < n then v % 256 else p.mem i,
    written := p.written ++ List.range n }

/-- Modelled from the spec: `make_eth_header` of `packet.c`, which is not among
the sources.  It stamps the link header: destination (gateway) address, source
address and the IPv4 ether type. -/
def make_eth_header (p : Pkt) (eth : Nat) (src gw : List Nat) : Pkt :=
  let p := stBytes p eth (gw.take 6)
  let p := stBytes p (eth + 6) (src.take 6)
  stBytes p (eth + 12) [8, 0]

/-- Modelled from the spec: `make_ip_header` of `packet.c`, which is not among
the sources.  It stamps the network header: an IPv4 header without options
(version 4, header length 5 words) carrying the given protocol and the given
total-length member, which the caller passes already in network order. -/
def make_ip_header (le : Bool) (p : Pkt) (iph protocol len : Nat) : Pkt :=
  let p := stBits p (iph + off_ip_vhl) 0 4 (sizeof_ip / 4)
  let p := stBits p (iph + off_ip_vhl) 4 4 4
  let p := stN le 2 p (iph + off_ip_len) len
  st8 p (iph + off_ip_p) protocol

/-- Modelled from the spec: `make_tcp_header` of `packet.c`, which is not among
the sources.  It builds a TCP SYN header without options (data offset
`sizeof(struct tcphdr)/4`) towards the given destination port. -/
def make_tcp_header (le : Bool) (p : Pkt) (tcp dst_port : Nat) : Pkt :=
  let p := stBits p (tcp + off_th_offx2) 4 4 (sizeof_tcphdr / 4)
  let p := st8 p (tcp + off_th_flags) TH_SYN
  stN le 2 p (tcp + off_th_dport) (htons le (u16 dst_port))

/-- The value `EXIT_SUCCESS`. -/
def EXIT_SUCCESS : Nat := 0

/-- Function `synscan_init_perthread_mp`: the buffer it leaves and its return
value. -/
def synscan_init_perthread_mp (le : Bool) (buf : Pkt) (src gw : List Nat) (dst_port : Nat) :
    Pkt × Nat :=
  -- memset(buf, 0, MAX_PACKET_SIZE);
  let p := memset buf 0 MAX_PACKET_SIZE
  let eth_header := 0
  let p := make_eth_header p eth_header src gw
  let ip_header := eth_header + sizeof_ether_header
  -- uint16_t len = htons(sizeof(struct ip) + sizeof(struct tcphdr) + MPTCP_SUB_LEN_CAPABLE_SYN);
  let len := htons le (sizeof_ip + sizeof_tcphdr + MPTCP_SUB_LEN_CAPABLE_SYN)
  let p := make_ip_header le p ip_header IPPROTO_TCP len
  let tcp_header := ip_header + sizeof_ip
  let p := make_tcp_header le p tcp_header dst_port
  -- tcp_header->th_off += MPTCP_SUB_LEN_CAPABLE_SYN / 4;
  let p := stBits p (tcp_header + off_th_offx2) 4 4
    (th_off p.mem tcp_header + MPTCP_SUB_LEN_CAPABLE_SYN / 4)
  (p, EXIT_SUCCESS)

/-- The two checksum routines of `packet.h`/`packet.c`, which are not among the
sources; `synscan_make_mppacket` is embedded for any pair of them.
`tcp_checksum len saddr daddr m tcp` reads the segment at offset `tcp` of `m`,
`zmap_ip_checksum m ip` the header at offset `ip`. -/
structure Checksums where
  tcp_checksum : Nat → Nat → Nat → Mem → Nat → Nat
  zmap_ip_checksum : Mem → Nat → Nat

/-- Function `synscan_make_mppacket`: the buffer it leaves and its return value. -/
def synscan_make_mppacket (le : Bool) (ck : Checksums) (c : state_conf) (num_ports : Nat)
    (buf : Pkt) (src_ip dst_ip : Nat) (validation : Validation) (probe_num : Nat) :
    Pkt × Nat :=
  let eth_header := 0
  let ip_header := eth_header + sizeof_ether_header
  let tcp_header := ip_header + sizeof_ip
  let mpc := tcp_header + sizeof_tcphdr
  -- uint32_t tcp_seq = validation[0];
  let tcp_seq := u32 (validation 0)
  -- ip_header->ip_src.s_addr = src_ip; ip_header->ip_dst.s_addr = dst_ip;
  let p := stN le 4 buf (ip_header + off_ip_src) (u32 src_ip)
  let p := stN le 4 p (ip_header + off_ip_dst) (u32 dst_ip)
  -- tcp_header->th_sport = htons(get_src_port(num_ports, probe_num, validation));
  let p := stN le 2 p (tcp_header + off_th_sport)
    (htons le (get_src_port c num_ports probe_num validation))
  -- tcp_header->th_seq = tcp_seq; tcp_header->th_sum = 0;
  let p := stN le 4 p (tcp_header + off_th_seq) tcp_seq
  let p := stN le 2 p (tcp_header + off_th_sum) 0
  -- mpc->kind = TCPOPT_MPTCP; mpc->sender_key = 0xBEEFFEDBADC00FEE;
  let p := st8 p (mpc + 0) TCPOPT_MPTCP
  let p := stN le 8 p (mpc + 4) 0xBEEFFEDBADC00FEE
  -- mpc->len = MPTCP_SUB_LEN_CAPABLE_SYN;
  let p := st8 p (mpc + 1) MPTCP_SUB_LEN_CAPABLE_SYN
  -- mpc->sub = MPTCP_SUB_CAPABLE; mpc->ver = 0;
  let p := stBits p (mpc + 2) 4 4 MPTCP_SUB_CAPABLE
  let p := stBits p (mpc + 2) 0 4 0
  -- mpc->a = 0; mpc->b = 0; mpc->rsv = 0; mpc->h = 1;
  let p := stBits p (mpc + 3) 7 1 0
  let p := stBits p (mpc + 3) 6 1 0
  let p := stBits p (mpc + 3) 1 5 0
  let p := stBits p (mpc + 3) 0 1 1
  -- tcp_header->th_sum = tcp_checksum(sizeof(struct tcphdr) + MPTCP_SUB_LEN_CAPABLE_SYN, ...);
  let p := stN le 2 p (tcp_header + off_th_sum)
    (u16 (ck.tcp_checksum (sizeof_tcphdr + MPTCP_SUB_LEN_CAPABLE_SYN)
      (rd32 le p.mem (ip_header + off_ip_src)) (rd32 le p.mem (ip_header + off_ip_dst))
      p.mem tcp_header))
  -- ip_header->ip_sum = 0; ip_header->ip_sum = zmap_ip_checksum((unsigned short *) ip_header);
  let p := stN le 2 p (ip_header + off_ip_sum) 0
  let p := stN le 2 p (ip_header + off_ip_sum) (u16 (ck.zmap_ip_checksum p.mem ip_header))
  (p, EXIT_SUCCESS)

/-! ## Field sets and `synscan_process_mppacket` -/

/-- A value of a field set: an unsigned 64-bit integer or a string. -/
inductive field_val where
  | uint64 (n : Nat)
  | string (s : String)
  deriving DecidableEq, Repr

/-- One entry of a field set. -/
structure field_t where
  name : String
  value : field_val
  deriving DecidableEq, Repr

/-- A field set: the entries in the order they were added. -/
abbrev fieldset_t := List field_t

/-- Modelled from the spec: `fs_add_uint64` of `fieldset.c`, which is not among
the sources.  A field set is an ordered mapping of field names to typed
values; adding appends one entry. -/
def fs_add_uint64 (fs : fieldset_t) (name : String) (value : Nat) : fieldset_t :=
  fs ++ [{ name := name, value := field_val.uint64 (u64 value) }]

/-- Modelled from the spec: `fs_add_string` of `fieldset.c`, which is not among
the sources; `free_` is the C flag telling whether the string is owned. -/
def fs_add_string (fs : fieldset_t) (name : String) (value : String) (_free : Nat) :
    fieldset_t :=
  fs ++ [{ name := name, value := field_val.string value }]

/-- Function `synscan_process_mppacket`: the field set after the call.  `packet`
is the captured frame, starting at the link header. -/
def synscan_process_mppacket (le : Bool) (packet : Mem) (_len : Nat) (fs : fieldset_t) :
    fieldset_t :=
  -- struct ip *ip_hdr = (struct ip *)&packet[sizeof(struct ether_header)];
  let ip_hdr := sizeof_ether_header
  let tcp := ip_hdr + 4 * ip_hl packet ip_hdr
  let fs := fs_add_uint64 fs "sport" (ntohs le (rd16 le packet (tcp + off_th_sport)))
  let fs := fs_add_uint64 fs "dport" (ntohs le (rd16 le packet (tcp + off_th_dport)))
  let fs := fs_add_uint64 fs "seqnum" (ntohl le (rd32 le packet (tcp + off_th_seq)))
  let fs := fs_add_uint64 fs "acknum" (ntohl le (rd32 le packet (tcp + off_th_ack)))
  let fs := fs_add_uint64 fs "window" (ntohs le (rd16 le packet (tcp + off_th_win)))
  -- if (tcp->th_flags & TH_RST)
  if th_flags packet tcp &&& TH_RST ≠ 0 then
    let fs := fs_add_string fs "classification" "rst" 0
    fs_add_uint64 fs "success" 0
  else
    let fs := fs_add_string fs "classification" "synack" 0
    fs_add_uint64 fs "success" 1

/-- One entry of a field schema. -/
structure fielddef_t where
  name : String
  type : String
  desc : String
  deriving DecidableEq, Repr

/-- The static table `fields` of the module. -/
def fields : List fielddef_t :=
  [ { name := "sport", type := "int", desc := "TCP source port" },
    { name := "dport", type := "int", desc := "TCP destination port" },
    { name := "seqnum", type := "int", desc := "TCP sequence number" },
    { name := "acknum", type := "int", desc := "TCP acknowledgement number" },
    { name := "window", type := "int", desc := "TCP window" },
    { name := "classification", type := "string", desc := "packet classification" },
    { name := "success", type := "int", desc := "is response considered success" } ]

/-- The data members of a `probe_module_t` (the function table is the
functions of this file). -/
structure probe_module_t where
  name : String
  packet_length : Nat
  pcap_filter : String
  pcap_snaplen : Nat
  port_args : Nat
  fields : List fielddef_t
  numfields : Nat

/-- The descriptor `module_mptcp_synscan`. -/
def module_mptcp_synscan : probe_module_t :=
  { name := "mptcp_synscan",
    packet_length := 66,
    pcap_filter := "tcp && tcp[13] & 4 != 0 || tcp[13] == 18",
    pcap_snaplen := 96,
    port_args := 1,
    fields := fields,
    numfields := 7 }

/-! ## Doubles

The C type `double` is embedded as an extended rational: the finite values are
exact rationals (rounding and the finite range are abstracted away), and the
special values `+inf`, `-inf` and NaN behave as in IEEE 754.  Zero is the
positive zero. -/

/-- A `double`: a finite value or one of the three special values. -/
inductive Dbl where
  | fin (q : ℚ)
  | pinf
  | ninf
  | nan
  deriving DecidableEq

namespace Dbl

/-- Conversion of an unsigned integer to `double`. -/
def ofNat (n : Nat) : Dbl := fin (n : ℚ)

/-- Conversion of a signed integer to `double`. -/
def ofInt (z : Int) : Dbl := fin (z : ℚ)

/-- The C constant `INFINITY`. -/
def INFINITY : Dbl := pinf

/-- Unary minus. -/
def neg : Dbl → Dbl
  | fin q => fin (-q)
  | pinf => ninf
  | ninf => pinf
  | nan => nan

/-- Addition. -/
def add : Dbl → Dbl → Dbl
  | nan, _ => nan
  | _, nan => nan
  | fin a, fin b => fin (a + b)
  | fin _, pinf => pinf
  | fin _, ninf => ninf
  | pinf, ninf => nan
  | pinf, _ => pinf
  | ninf, pinf => nan
  | ninf, _ => ninf

/-- Subtraction. -/
def sub (x y : Dbl) : Dbl := add x (neg y)

/-- The infinity of the sign of `s * t`, for nonzero finite or infinite factors
described by their signs (`true` = negative). -/
def infOfSign (negative : Bool) : Dbl := if negative then ninf else pinf

/-- Multiplication. -/
def mul : Dbl → Dbl → Dbl
  | nan, _ => nan
  | _, nan => nan
  | fin a, fin b => fin (a * b)
  | fin a, pinf => if a = 0 then nan else infOfSign (decide (a < 0))
  | fin a, ninf => if a = 0 then nan else infOfSign (decide (0 < a))
  | pinf, fin b => if b = 0 then nan else infOfSign (decide (b < 0))
  | ninf, fin b => if b = 0 then nan else infOfSign (decide (0 < b))
  | pinf, pinf => pinf
  | pinf, ninf => ninf
  | ninf, pinf => ninf
  | ninf, ninf => pinf

/-- Division. -/
def div : Dbl → Dbl → Dbl
  | nan, _ => nan
  | _, nan => nan
  | fin a, fin b =>
      if b = 0 then (if a = 0 then nan else infOfSign (decide (a < 0))) else fin (a / b)
  | fin _, pinf => fin 0
  | fin _, ninf => fin 0
  | pinf, fin b => infOfSign (decide (b < 0))
  | ninf, fin b => infOfSign (decide (0 ≤ b))
  | pinf, _ => nan
  | ninf, _ => nan

/-- The comparison `x < y`; false as soon as one side is NaN. -/
def lt : Dbl → Dbl → Bool
  | nan, _ => false
  | _, nan => false
  | fin a, fin b => decide (a < b)
  | fin _, pinf => true
  | fin _, ninf => false
  | pinf, _ => false
  | ninf, ninf => false
  | ninf, _ => true

/-- The comparison `x > y`. -/
def gt (x y : Dbl) : Bool := lt y x

/-- The comparison `x <= y`; false as soon as one side is NaN. -/
def le : Dbl → Dbl → Bool
  | nan, _ => false
  | _, nan => false
  | fin a, fin b => decide (a ≤ b)
  | _, pinf => true
  | ninf, _ => true
  | pinf, _ => false
  | fin _, ninf => false

/-- Conversion of a `double` to `uint32_t`: truncation towards zero; the C
conversion is undefined (`none`) when the truncated value is not
representable. -/
def toU32 : Dbl → Option Nat
  | fin q =>
      let t : Int := if 0 ≤ q then ⌊q⌋ else ⌈q⌉
      if 0 ≤ t ∧ t < 4294967296 then some t.toNat else none
  | _ => none

end Dbl

/-! ## The monitor -/

/-- The members of the global `zsend` that the monitor reads. -/
structure state_send where
  start : Dbl
  finish : Dbl
  complete : Nat
  targets : Nat
  sendto_failures : Nat

/-- The members of the global `zrecv` that the monitor reads. -/
structure state_recv where
  success_unique : Nat
  app_success_unique : Nat
  pcap_recv : Nat
  pcap_drop : Nat
  pcap_ifdrop : Nat
  complete : Nat

/-- What the monitor asks of the iterator: `iterator_get_sent` and
`iterator_get_curr_send_threads`. -/
structure iterator_t where
  sent : Nat
  curr_send_threads : Nat

/-- The struct `int_status_t`: the last-tick counters. -/
structure int_status_t where
  last_now : Dbl
  last_sent : Nat
  last_send_failures : Nat
  last_recv_net_success : Nat
  last_recv_app_success : Nat
  last_recv_total : Nat
  last_pcap_drop : Nat

/-- The numeric members of the struct `export_status_t` (the formatted strings,
produced by `number_string` and `time_string`, are left out).  The two members
that receive a `double` converted to `uint32_t` are `none` when that conversion
is undefined. -/
structure export_status_t where
  total_sent : Nat
  recv_success_unique : Nat
  app_recv_success_unique : Nat
  total_recv : Nat
  complete : Nat
  send_threads : Nat
  percent_complete : Dbl
  hitrate : Dbl
  app_hitrate : Dbl
  send_rate : Dbl
  send_rate_avg : Dbl
  recv_rate : Dbl
  recv_avg : Dbl
  recv_total_rate : Dbl
  recv_total_avg : Dbl
  app_success_rate : Dbl
  app_success_avg : Dbl
  pcap_drop : Nat
  pcap_ifdrop : Nat
  pcap_drop_total : Nat
  pcap_drop_last : Dbl
  pcap_drop_avg : Dbl
  time_remaining : Option Nat
  time_past : Option Nat
  fail_total : Nat
  fail_avg : Dbl
  fail_last : Dbl

/-- The `uint32_t` difference `a - b`. -/
def u32sub (a b : Nat) : Nat := u32 (u32 a + (4294967296 - u32 b))

/-- Function `min_d`: minimum of the first `n` entries of an array of doubles. -/
def min_d (array : List Dbl) (n : Nat) : Dbl :=
  (List.range n).foldl
    (fun value i => if Dbl.lt (array.getD i Dbl.nan) value then array.getD i Dbl.nan else value)
    Dbl.INFINITY

/-- Function `compute_remaining_time`; `now_` is what its call of `now()` returns. -/
def compute_remaining_time (zconf : state_conf) (zsend : state_send) (zrecv : state_recv)
    (now_ : Dbl) (age : Dbl) (sent : Nat) : Dbl :=
  if zsend.complete = 0 then
    -- double remaining[] = {INFINITY, INFINITY, INFINITY};
    let remaining := [Dbl.INFINITY, Dbl.INFINITY, Dbl.INFINITY]
    let remaining :=
      if zsend.targets ≠ 0 then
        let done := Dbl.div (Dbl.ofNat sent) (Dbl.ofNat zsend.targets)
        remaining.set 0
          (Dbl.add (Dbl.mul (Dbl.sub (Dbl.fin 1) done) (Dbl.div age done))
            (Dbl.ofInt zconf.cooldown_secs))
      else remaining
    let remaining :=
      if zconf.max_runtime ≠ 0 then
        remaining.set 1
          (Dbl.add (Dbl.sub (Dbl.ofNat zconf.max_runtime) age) (Dbl.ofInt zconf.cooldown_secs))
      else remaining
    let remaining :=
      if zconf.max_results ≠ 0 then
        let done := Dbl.div (Dbl.ofNat (u32 zrecv.success_unique)) (Dbl.ofNat zconf.max_results)
        remaining.set 2 (Dbl.mul (Dbl.sub (Dbl.fin 1) done) (Dbl.div age done))
      else remaining
    min_d remaining 3
  else
    Dbl.sub (Dbl.ofInt zconf.cooldown_secs) (Dbl.sub now_ zsend.finish)

/-- Function `export_stats`: the new internal and export snapshots.  `now0` is
what the call of `now()` in `export_stats` returns and `now1` what the later
call in `compute_remaining_time` returns. -/
def export_stats (zconf : state_conf) (zsend : state_send) (zrecv : state_recv)
    (now0 now1 : Dbl) (intrnl : int_status_t) (exp : export_status_t) (it : iterator_t) :
    int_status_t × export_status_t :=
  let total_sent := u32 it.sent
  let total_recv := u32 zrecv.pcap_recv
  let recv_success := u32 zrecv.success_unique
  let app_success := u32 zrecv.app_success_unique
  let cur_time := now0
  let age := Dbl.sub cur_time zsend.start
  let delta := Dbl.sub cur_time intrnl.last_now
  let remaining_secs := compute_remaining_time zconf zsend zrecv now1 age total_sent
  let exp := { exp with time_past := Dbl.toU32 age, time_remaining := Dbl.toU32 remaining_secs }
  -- export recv statistics
  let exp := { exp with
    recv_rate := Dbl.div (Dbl.ofNat (u32sub recv_success intrnl.last_recv_net_success)) delta,
    recv_avg := Dbl.div (Dbl.ofNat recv_success) age,
    recv_total_rate := Dbl.div (Dbl.ofNat (u32sub total_recv intrnl.last_recv_total)) delta,
    recv_total_avg := Dbl.div (Dbl.ofNat total_recv) age }
  -- application level statistics
  let exp :=
    if 0 ≤ zconf.app_success_index then
      { exp with
        app_success_rate :=
          Dbl.div (Dbl.ofNat (u32sub app_success intrnl.last_recv_app_success)) delta,
        app_success_avg := Dbl.div (Dbl.ofNat app_success) age }
    else exp
  let exp :=
    if total_sent = 0 then { exp with hitrate := Dbl.fin 0, app_hitrate := Dbl.fin 0 }
    else
      { exp with
        hitrate := Dbl.div (Dbl.mul (Dbl.ofNat recv_success) (Dbl.fin 100)) (Dbl.ofNat total_sent),
        app_hitrate :=
          Dbl.div (Dbl.mul (Dbl.ofNat app_success) (Dbl.fin 100)) (Dbl.ofNat total_sent) }
  let exp :=
    if zsend.complete = 0 then
      { exp with
        send_rate := Dbl.div (Dbl.ofNat (u32sub total_sent intrnl.last_sent)) delta,
        send_rate_avg := Dbl.div (Dbl.ofNat total_sent) age }
    else
      { exp with
        send_rate_avg := Dbl.div (Dbl.ofNat total_sent) (Dbl.sub zsend.finish zsend.start) }
  -- export other pre-calculated values
  let exp := { exp with
    total_sent := total_sent,
    percent_complete := Dbl.div (Dbl.mul (Dbl.fin 100) age) (Dbl.add age remaining_secs),
    recv_success_unique := recv_success,
    app_recv_success_unique := app_success,
    total_recv := total_recv,
    complete := u32 zsend.complete }
  -- pcap dropped packets
  let exp := { exp with pcap_drop := u32 zrecv.pcap_drop, pcap_ifdrop := u32 zrecv.pcap_ifdrop }
  let exp := { exp with pcap_drop_total := u32 (exp.pcap_drop + exp.pcap_ifdrop) }
  let exp := { exp with
    pcap_drop_last := Dbl.div (Dbl.ofNat (u32sub exp.pcap_drop_total intrnl.last_pcap_drop)) delta,
    pcap_drop_avg := Dbl.div (Dbl.ofNat exp.pcap_drop_total) age }
  let exp := { exp with fail_total := u32 zsend.sendto_failures }
  let exp := { exp with
    fail_last := Dbl.div (Dbl.ofNat (u32sub exp.fail_total intrnl.last_send_failures)) delta,
    fail_avg := Dbl.div (Dbl.ofNat exp.fail_total) age }
  -- misc
  let exp := { exp with send_threads := u32 it.curr_send_threads }
  -- Update internal stats
  let intrnl : int_status_t :=
    { last_now := cur_time,
      last_sent := exp.total_sent,
      last_recv_net_success := exp.recv_success_unique,
      last_recv_app_success := exp.app_recv_success_unique,
      last_pcap_drop := exp.pcap_drop_total,
      last_send_failures := exp.fail_total,
      last_recv_total := exp.total_recv }
  (intrnl, exp)

/-- A call of `log_warn` by the monitor, with the values it prints. -/
inductive Warning where
  | drop (last : Dbl) (total pcap iface : Nat)
  | sendFailure (last : Dbl) (total : Nat)
  deriving DecidableEq

/-- Whether a warning is the drop-rate warning. -/
def Warning.isDrop : Warning → Bool
  | Warning.drop _ _ _ _ => true
  | Warning.sendFailure _ _ => false

/-- Function `log_drop_warnings`: the warnings it logs, in order. -/
def log_drop_warnings (exp : export_status_t) : List Warning :=
  let w1 :=
    if Dbl.gt (Dbl.div exp.pcap_drop_last exp.recv_rate) (Dbl.fin (5 / 100)) then
      [Warning.drop exp.pcap_drop_last exp.pcap_drop_total exp.pcap_drop exp.pcap_ifdrop]
    else []
  let w2 :=
    if Dbl.gt (Dbl.div exp.fail_last exp.send_rate) (Dbl.fin (1 / 100)) then
      [Warning.sendFailure exp.fail_last exp.fail_total]
    else []
  w1 ++ w2

/-! ## Statements under examination and sample inputs -/

/-- The five acceptance conditions of `synscan_validate_mppacket` with the last
one read literally: the acknowledgement number of the response equals
`validation[0] + 1` modulo 2^32. -/
def validate_conditions_as_stated (le : Bool) (c : state_conf) (num_ports : Nat) (m : Mem)
    (len : Nat) (validation : Validation) : Prop :=
  ip_p m 0 = IPPROTO_TCP
    ∧ 4 * ip_hl m 0 + sizeof_tcphdr ≤ len
    ∧ ntohs le (rd16 le m (4 * ip_hl m 0 + off_th_sport)) = u16 c.target_port
    ∧ check_dst_port c (ntohs le (rd16 le m (4 * ip_hl m 0 + off_th_dport))) num_ports validation ≠ 0
    ∧ ntohl le (rd32 le m (4 * ip_hl m 0 + off_th_ack)) = u32 (u32 (validation 0) + 1)

instance (le : Bool) (c : state_conf) (num_ports : Nat) (m : Mem) (len : Nat)
    (validation : Validation) :
    Decidable (validate_conditions_as_stated le c num_ports m len validation) := by
  unfold validate_conditions_as_stated
  infer_instance

/-- A sample configuration: target port 80, source ports 32768 to 61000. -/
def sampleConf : state_conf :=
  { target_port := 80, source_port_first := 32768, source_port_last := 61000,
    cooldown_secs := 8, max_runtime := 0, max_results := 0, app_success_index := -1,
    quiet := false }

/-- A sample validation vector: `validation[0] = 1`, the other words 0. -/
def sampleValidation : Validation := fun i => if i = 0 then 1 else 0

/-- A sample response, from the IP header on: a 20-byte IPv4 header with
protocol TCP, then a TCP header with source port 80, destination port 32768,
acknowledgement number 2 and the flags SYN and ACK. -/
def sampleResponseAck2 : Mem :=
  memOfList
    [0x45, 0, 0, 40, 0, 0, 0, 0, 64, 6, 0, 0, 10, 0, 0, 1, 10, 0, 0, 2,
     0, 80, 0x80, 0, 0, 0, 0, 7, 0, 0, 0, 2, 0x50, 0x12, 0xff, 0xff, 0, 0, 0, 0]

/-- The same response with the acknowledgement number 0x01000001. -/
def sampleResponseAckSwapped : Mem :=
  memOfList
    [0x45, 0, 0, 40, 0, 0, 0, 0, 64, 6, 0, 0, 10, 0, 0, 1, 10, 0, 0, 2,
     0, 80, 0x80, 0, 0, 0, 0, 7, 1, 0, 0, 1, 0x50, 0x12, 0xff, 0xff, 0, 0, 0, 0]

/-- Projection (a) of the remaining time: linear extrapolation from the
fraction of the targets sent so far, plus the cooldown; `+inf` when there is no
target count. -/
def remaining_by_targets (zconf : state_conf) (zsend : state_send) (age : Dbl) (sent : Nat) :
    Dbl :=
  if zsend.targets ≠ 0 then
    Dbl.add
      (Dbl.mul (Dbl.sub (Dbl.fin 1) (Dbl.div (Dbl.ofNat sent) (Dbl.ofNat zsend.targets)))
        (Dbl.div age (Dbl.div (Dbl.ofNat sent) (Dbl.ofNat zsend.targets))))
      (Dbl.ofInt zconf.cooldown_secs)
  else Dbl.pinf

/-- Projection (b) of the remaining time: the maximum runtime minus the age,
plus the cooldown; `+inf` when there is no maximum runtime. -/
def remaining_by_runtime (zconf : state_conf) (age : Dbl) : Dbl :=
  if zconf.max_runtime ≠ 0 then
    Dbl.add (Dbl.sub (Dbl.ofNat zconf.max_runtime) age) (Dbl.ofInt zconf.cooldown_secs)
  else Dbl.pinf

/-- Projection (c) of the remaining time: linear extrapolation from the
fraction of the result cap reached so far; `+inf` when there is no cap. -/
def remaining_by_results (zconf : state_conf) (zrecv : state_recv) (age : Dbl) : Dbl :=
  if zconf.max_results ≠ 0 then
    Dbl.mul
      (Dbl.sub (Dbl.fin 1)
        (Dbl.div (Dbl.ofNat (u32 zrecv.success_unique)) (Dbl.ofNat zconf.max_results)))
      (Dbl.div age
        (Dbl.div (Dbl.ofNat (u32 zrecv.success_unique)) (Dbl.ofNat zconf.max_results)))
  else Dbl.pinf

/-- A sample send state: 1000 targets, sending in progress, started at time 0. -/
def sampleSend : state_send :=
  { start := Dbl.fin 0, finish := Dbl.fin 0, complete := 0, targets := 1000,
    sendto_failures := 0 }

/-- A sample receive state: 60 unique successes among 80 captured responses, 5 drops. -/
def sampleRecv : state_recv :=
  { success_unique := 60, app_success_unique := 0, pcap_recv := 80, pcap_drop := 5,
    pcap_ifdrop := 0, complete := 0 }

/-- The rate formula read literally: the rate is not negative and is the
mathematical difference of the two counters divided by `delta`. -/
def rate_as_stated (rate : Dbl) (cur prev : Nat) (d : ℚ) : Prop :=
  Dbl.le (Dbl.fin 0) rate = true ∧ rate = Dbl.fin (((cur : ℚ) - (prev : ℚ)) / d)

/-- The rate formula of the code: the rate is not negative, it is the
`uint32_t` difference of the two counters divided by `delta`, and that is the
mathematical difference whenever the counter has not decreased. -/
def rate_mod32 (rate : Dbl) (cur prev : Nat) (d : ℚ) : Prop :=
  Dbl.le (Dbl.fin 0) rate = true
    ∧ rate = Dbl.fin ((u32sub cur prev : ℚ) / d)
    ∧ (u32 prev ≤ u32 cur → rate = Dbl.fin (((u32 cur : ℚ) - (u32 prev : ℚ)) / d))

/-- A sample internal snapshot taken at time 0, with 5 unique successes. -/
def sampleInternal : int_status_t :=
  { last_now := Dbl.fin 0, last_sent := 0, last_send_failures := 0,
    last_recv_net_success := 5, last_recv_app_success := 0, last_recv_total := 0,
    last_pcap_drop := 0 }

/-- An export snapshot with every member zero. -/
def zeroExport : export_status_t :=
  { total_sent := 0, recv_success_unique := 0, app_recv_success_unique := 0, total_recv := 0,
    complete := 0, send_threads := 0, percent_complete := Dbl.fin 0, hitrate := Dbl.fin 0,
    app_hitrate := Dbl.fin 0, send_rate := Dbl.fin 0, send_rate_avg := Dbl.fin 0,
    recv_rate := Dbl.fin 0, recv_avg := Dbl.fin 0, recv_total_rate := Dbl.fin 0,
    recv_total_avg := Dbl.fin 0, app_success_rate := Dbl.fin 0, app_success_avg := Dbl.fin 0,
    pcap_drop := 0, pcap_ifdrop := 0, pcap_drop_total := 0, pcap_drop_last := Dbl.fin 0,
    pcap_drop_avg := Dbl.fin 0, time_remaining := some 0, time_past := some 0, fail_total := 0,
    fail_avg := Dbl.fin 0, fail_last := Dbl.fin 0 }

/-- A sample receive state with 3 unique successes. -/
def sampleRecvLow : state_recv :=
  { success_unique := 3, app_success_unique := 0, pcap_recv := 3, pcap_drop := 0,
    pcap_ifdrop := 0, complete := 0 }

/-- A sample iterator state: 100 probes sent by one thread. -/
def sampleIterator : iterator_t := { sent := 100, curr_send_threads := 1 }

/-! ## Byte order and the probe module -/

/-! ## Consecutive ticks of the monitor -/

/-- What one iteration of the loop of `monitor_run` observes when it calls
`export_stats`: the globals `zsend` and `zrecv`, the two clock readings and
the iterator. -/
structure tick_obs where
  zsend : state_send
  zrecv : state_recv
  now0 : Dbl
  now1 : Dbl
  it : iterator_t

/-- The calls of `export_stats` made by consecutive iterations of the loop of
`monitor_run`, which hands the same two snapshots to every call: for each tick
the `delta` that `export_stats` computed and the export snapshot it left, and
the internal snapshot after the last tick. -/
def monitor_ticks (zconf : state_conf) :
    int_status_t → export_status_t → List tick_obs → List (Dbl × export_status_t) × int_status_t
  | intrnl, _, [] => ([], intrnl)
  | intrnl, exp, t :: ts =>
      let r := export_stats zconf t.zsend t.zrecv t.now0 t.now1 intrnl exp t.it
      let rest := monitor_ticks zconf r.1 r.2 ts
      ((Dbl.sub t.now0 intrnl.last_now, r.2) :: rest.1, rest.2)

/-- The sum over the ticks of `recv_rate * delta`. -/
def recv_rate_mass : List (Dbl × export_status_t) → Dbl
  | [] => Dbl.fin 0
  | p :: ps => Dbl.add (Dbl.mul p.2.recv_rate p.1) (recv_rate_mass ps)

/-- Whether a double is finite and positive. -/
def Dbl.isFinitePos : Dbl → Bool
  | Dbl.fin q => decide (0 < q)
  | _ => false

/-- The ticks have positive deltas and a unique-success counter that does not
decrease (no 32-bit wrap), starting from the time `prev_now` and the counter
value `prev_count` of the internal snapshot. -/
def ticks_advance (prev_now : Dbl) (prev_count : Nat) : List tick_obs → Prop
  | [] => True
  | t :: ts =>
      Dbl.isFinitePos (Dbl.sub t.now0 prev_now) = true
        ∧ u32 prev_count ≤ u32 t.zrecv.success_unique
        ∧ ticks_advance t.now0 (u32 t.zrecv.success_unique) ts

/-- The unique-success counter read at the last of the ticks, or `prev_count`
when there is no tick. -/
def last_success_count (prev_count : Nat) : List tick_obs → Nat
  | [] => prev_count
  | t :: ts => last_success_count (u32 t.zrecv.success_unique) ts

/-- A sample tick at time 1: 7 unique successes. -/
def sampleTick1 : tick_obs :=
  { zsend := sampleSend,
    zrecv := { sampleRecvLow with success_unique := 7, pcap_recv := 9 },
    now0 := Dbl.fin 1, now1 := Dbl.fin 1, it := sampleIterator }

/-- A sample tick at time 3: 60 unique successes. -/
def sampleTick2 : tick_obs :=
  { zsend := sampleSend, zrecv := sampleRecv, now0 := Dbl.fin 3, now1 := Dbl.fin 3,
    it := sampleIterator }

theorem htons_rd16 (le : Bool) (m : Mem) (a : Nat) : htons le (rd16 le m a) = be16 m a := by
  have h0 : rd8 m a < 256 := Nat.mod_lt _ (by decide)
  have h1 : rd8 m (a + 1) < 256 := Nat.mod_lt _ (by decide)
  cases le <;> simp only [htons, rd16, be16, bswap16, u16, if_true, if_false, Bool.false_eq_true] <;> omega

theorem htonl_rd32 (le : Bool) (m : Mem) (a : Nat) : htonl le (rd32 le m a) = be32 m a := by
  have h0 : rd8 m a < 256 := Nat.mod_lt _ (by decide)
  have h1 : rd8 m (a + 1) < 256 := Nat.mod_lt _ (by decide)
  have h2 : rd8 m (a + 2) < 256 := Nat.mod_lt _ (by decide)
  have h3 : rd8 m (a + 3) < 256 := Nat.mod_lt _ (by decide)
  cases le <;> simp only [htonl, rd32, be32, bswap32, u32, if_true, if_false, Bool.false_eq_true] <;> omega

theorem validate_eq (le : Bool) (c : state_conf) (num_ports : Nat) (m : Mem) (len : Nat)
    (validation : Validation) :
    synscan_validate_mppacket le c num_ports m len validation =
      if ip_p m 0 = IPPROTO_TCP ∧ 4 * ip_hl m 0 + sizeof_tcphdr ≤ len
          ∧ be16 m (4 * ip_hl m 0 + off_th_sport) = u16 c.target_port
          ∧ check_dst_port c (be16 m (4 * ip_hl m 0 + off_th_dport)) num_ports validation ≠ 0
          ∧ be32 m (4 * ip_hl m 0 + off_th_ack) = u32 (htonl le (u32 (validation 0)) + 1)
      then 1 else 0 := by
  unfold synscan_validate_mppacket synscan_validate_mppacket_run
  simp only [ntohs, htons_rd16, htonl_rd32]
  by_cases h1 : ip_p m 0 = IPPROTO_TCP
  · by_cases h2 : 4 * ip_hl m 0 + sizeof_tcphdr ≤ len
    · have h2n : ¬ len < 4 * ip_hl m 0 + sizeof_tcphdr := by omega
      by_cases h3 : be16 m (4 * ip_hl m 0 + off_th_sport) = u16 c.target_port
      · by_cases h4 : check_dst_port c (be16 m (4 * ip_hl m 0 + off_th_dport)) num_ports validation = 0
        · simp [h1, h2, h2n, h3, h4]
        · by_cases h5 : be32 m (4 * ip_hl m 0 + off_th_ack) = u32 (htonl le (u32 (validation 0)) + 1)
          · simp [h1, h2, h2n, h3, h4, h5]
          · simp [h1, h2, h2n, h3, h4, h5]
      · simp [h1, h2, h2n, h3]
    · have h2b : 4 * ip_hl m 0 + sizeof_tcphdr > len := by omega
      simp [h1, h2, h2b]
  · simp [h1]

/-- C1 (as stated, refuted): on a little-endian host with `validation[0] = 1`,
the response `sampleResponseAck2` meets the five conditions as the claim words
them (its acknowledgement number 2 is `validation[0] + 1`), yet
`synscan_validate_mppacket` rejects it; and it accepts
`sampleResponseAckSwapped`, whose acknowledgement number is 0x01000001. -/
theorem C1_counterexample :
    validate_conditions_as_stated true sampleConf (synscan_global_initialize_mp sampleConf)
        sampleResponseAck2 40 sampleValidation
      ∧ synscan_validate_mppacket true sampleConf (synscan_global_initialize_mp sampleConf)
        sampleResponseAck2 40 sampleValidation = 0
      ∧ ¬ validate_conditions_as_stated true sampleConf
        (synscan_global_initialize_mp sampleConf) sampleResponseAckSwapped 40 sampleValidation
      ∧ synscan_validate_mppacket true sampleConf (synscan_global_initialize_mp sampleConf)
        sampleResponseAckSwapped 40 sampleValidation = 1 := by
  decide

/-- C1 (amended): `synscan_validate_mppacket` returns 1 exactly when the IP
protocol is TCP, `4*ip_hl + sizeof(struct tcphdr) <= len`, the source port on
the wire is the target port, `check_dst_port` accepts the destination port on
the wire, and the acknowledgement number on the wire is
`htonl(validation[0]) + 1` modulo 2^32; it returns 0 otherwise. -/
theorem C1_validate_accepts_iff (le : Bool) (c : state_conf) (num_ports : Nat) (m : Mem)
    (len : Nat) (validation : Validation) :
    synscan_validate_mppacket le c num_ports m len validation =
      if ip_p m 0 = IPPROTO_TCP ∧ 4 * ip_hl m 0 + sizeof_tcphdr ≤ len
          ∧ ntohs le (rd16 le m (4 * ip_hl m 0 + off_th_sport)) = u16 c.target_port
          ∧ check_dst_port c (ntohs le (rd16 le m (4 * ip_hl m 0 + off_th_dport)))
              num_ports validation ≠ 0
          ∧ ntohl le (rd32 le m (4 * ip_hl m 0 + off_th_ack))
              = u32 (htonl le (u32 (validation 0)) + 1)
      then 1 else 0 := by
  simp only [ntohs, ntohl, htons_rd16, htonl_rd32]
  exact validate_eq le c num_ports m len validation

theorem be32_wrN4 (le : Bool) (m : Mem) (a v : Nat) :
    be32 (wrN le 4 m a v) a = htonl le v := by
  have e0 : (wrN le 4 m a v) a = if le then byteOf v 0 else byteOf v 3 := by
    simp [wrN]
  have e1 : (wrN le 4 m a v) (a + 1) = if le then byteOf v 1 else byteOf v 2 := by
    simp [wrN]
  have e2 : (wrN le 4 m a v) (a + 2) = if le then byteOf v 2 else byteOf v 1 := by
    simp [wrN]
  have e3 : (wrN le 4 m a v) (a + 3) = if le then byteOf v 3 else byteOf v 0 := by
    simp [wrN]
  simp only [be32, rd8, e0, e1, e2, e3]
  cases le <;> simp only [htonl, bswap32, u32, byteOf, if_true, if_false, Bool.false_eq_true] <;>
    norm_num <;> omega

theorem be16_wrN2 (le : Bool) (m : Mem) (a v : Nat) :
    be16 (wrN le 2 m a v) a = htons le v := by
  have e0 : (wrN le 2 m a v) a = if le then byteOf v 0 else byteOf v 1 := by
    simp [wrN]
  have e1 : (wrN le 2 m a v) (a + 1) = if le then byteOf v 1 else byteOf v 0 := by
    simp [wrN]
  simp only [be16, rd8, e0, e1]
  cases le <;> simp only [htons, bswap16, u16, byteOf, if_true, if_false, Bool.false_eq_true] <;>
    norm_num <;> omega

theorem be32_congr (m m2 : Mem) (a : Nat)
    (h : ∀ i, a ≤ i → i < a + 4 → m i = m2 i) : be32 m a = be32 m2 a := by
  simp only [be32, rd8]
  rw [h a (by omega) (by omega), h (a + 1) (by omega) (by omega),
    h (a + 2) (by omega) (by omega), h (a + 3) (by omega) (by omega)]

theorem be16_congr (m m2 : Mem) (a : Nat)
    (h : ∀ i, a ≤ i → i < a + 2 → m i = m2 i) : be16 m a = be16 m2 a := by
  simp only [be16, rd8]
  rw [h a (by omega) (by omega), h (a + 1) (by omega) (by omega)]

theorem wr8_other (m : Mem) (a v i : Nat) (h : i ≠ a) : wr8 m a v i = m i := by
  simp [wr8, h]

theorem wrN_other (le : Bool) (n : Nat) (m : Mem) (a v i : Nat) (h : i < a ∨ a + n ≤ i) :
    wrN le n m a v i = m i := by
  have : ¬ (a ≤ i ∧ i < a + n) := by omega
  simp [wrN, this]

theorem make_seq_on_wire (le : Bool) (ck : Checksums) (c : state_conf) (num_ports : Nat)
    (buf : Pkt) (src_ip dst_ip : Nat) (validation : Validation) (probe_num : Nat) :
    be32 (synscan_make_mppacket le ck c num_ports buf src_ip dst_ip validation probe_num).1.mem
        (sizeof_ether_header + sizeof_ip + off_th_seq)
      = htonl le (u32 (validation 0)) := by
  rw [← be32_wrN4 le
    (stN le 2 (stN le 4 (stN le 4 buf (sizeof_ether_header + off_ip_src) (u32 src_ip))
      (sizeof_ether_header + off_ip_dst) (u32 dst_ip))
      (sizeof_ether_header + sizeof_ip + off_th_sport)
      (htons le (get_src_port c num_ports probe_num validation))).mem
    (sizeof_ether_header + sizeof_ip + off_th_seq) (u32 (validation 0))]
  apply be32_congr
  intro i h1 h2
  simp only [sizeof_ether_header, sizeof_ip, off_th_seq] at h1 h2
  simp only [synscan_make_mppacket, stN, st8, stBits, sizeof_ether_header, sizeof_ip,
    sizeof_tcphdr, off_th_seq, off_th_sum, off_ip_sum, off_ip_src, off_ip_dst, off_th_sport,
    Nat.zero_add]
  rw [wrN_other _ _ _ _ _ _ (by omega), wrN_other _ _ _ _ _ _ (by omega),
    wrN_other _ _ _ _ _ _ (by omega), wr8_other _ _ _ _ (by omega),
    wr8_other _ _ _ _ (by omega), wr8_other _ _ _ _ (by omega), wr8_other _ _ _ _ (by omega),
    wr8_other _ _ _ _ (by omega), wr8_other _ _ _ _ (by omega), wr8_other _ _ _ _ (by omega),
    wrN_other _ _ _ _ _ _ (by omega), wr8_other _ _ _ _ (by omega),
    wrN_other _ _ _ _ _ _ (by omega)]

theorem htons_htons (le : Bool) (x : Nat) : htons le (htons le x) = u16 x := by
  cases le
  · simp only [htons, u16, if_false, Bool.false_eq_true]
    omega
  · simp only [htons, bswap16, u16, if_true]
    have e : x % 65536 = x % 256 + 256 * (x / 256 % 256) := by omega
    have h0 : x % 256 < 256 := Nat.mod_lt _ (by decide)
    have h1 : x / 256 % 256 < 256 := Nat.mod_lt _ (by decide)
    rw [e]
    generalize x % 256 = b0 at h0
    generalize x / 256 % 256 = b1 at h1
    omega

theorem make_sport_on_wire (le : Bool) (ck : Checksums) (c : state_conf) (num_ports : Nat)
    (buf : Pkt) (src_ip dst_ip : Nat) (validation : Validation) (probe_num : Nat) :
    be16 (synscan_make_mppacket le ck c num_ports buf src_ip dst_ip validation probe_num).1.mem
        (sizeof_ether_header + sizeof_ip + off_th_sport)
      = get_src_port c num_ports probe_num validation := by
  have hu : u16 (get_src_port c num_ports probe_num validation)
      = get_src_port c num_ports probe_num validation := by
    simp only [get_src_port, u16]
    omega
  rw [← hu, ← htons_htons le, ← be16_wrN2 le
    (stN le 4 (stN le 4 buf (sizeof_ether_header + off_ip_src) (u32 src_ip))
      (sizeof_ether_header + off_ip_dst) (u32 dst_ip)).mem
    (sizeof_ether_header + sizeof_ip + off_th_sport)
    (htons le (get_src_port c num_ports probe_num validation))]
  apply be16_congr
  intro i h1 h2
  simp only [sizeof_ether_header, sizeof_ip, off_th_sport] at h1 h2
  simp only [synscan_make_mppacket, stN, st8, stBits, sizeof_ether_header, sizeof_ip,
    sizeof_tcphdr, off_th_seq, off_th_sum, off_ip_sum, off_ip_src, off_ip_dst, off_th_sport,
    Nat.zero_add]
  rw [wrN_other _ _ _ _ _ _ (by omega), wrN_other _ _ _ _ _ _ (by omega),
    wrN_other _ _ _ _ _ _ (by omega), wr8_other _ _ _ _ (by omega),
    wr8_other _ _ _ _ (by omega), wr8_other _ _ _ _ (by omega), wr8_other _ _ _ _ (by omega),
    wr8_other _ _ _ _ (by omega), wr8_other _ _ _ _ (by omega), wr8_other _ _ _ _ (by omega),
    wrN_other _ _ _ _ _ _ (by omega), wr8_other _ _ _ _ (by omega),
    wrN_other _ _ _ _ _ _ (by omega), wrN_other _ _ _ _ _ _ (by omega)]

theorem num_ports_of_range (c : state_conf)
    (h : u16 c.source_port_first ≤ u16 c.source_port_last) :
    synscan_global_initialize_mp c = u16 c.source_port_last - u16 c.source_port_first + 1 := by
  have h1 : u16 c.source_port_last < 65536 := Nat.mod_lt _ (by decide)
  simp only [synscan_global_initialize_mp, u32OfInt]
  omega

theorem rotate_back (a p n : Nat) (ha : a < n) (hp : p < n) :
    ((a + p) % n + (n - a)) % n = p := by
  by_cases h : a + p < n
  · rw [Nat.mod_eq_of_lt h]
    have e : a + p + (n - a) = p + n := by omega
    rw [e, Nat.add_mod_right, Nat.mod_eq_of_lt hp]
  · have h2 : (a + p) % n = a + p - n := by
      rw [Nat.mod_eq_sub_mod (by omega)]
      exact Nat.mod_eq_of_lt (by omega)
    rw [h2]
    have e : a + p - n + (n - a) = p := by omega
    rw [e, Nat.mod_eq_of_lt hp]

theorem port_index_of_src_port (c : state_conf) (validation : Validation) (probe_num : Nat)
    (hrange : u16 c.source_port_first ≤ u16 c.source_port_last)
    (hprobe : probe_num < synscan_global_initialize_mp c) :
    get_src_port c (synscan_global_initialize_mp c) probe_num validation
        = u16 c.source_port_first
          + (u32 (validation 1) + probe_num) % synscan_global_initialize_mp c
      ∧ port_probe_index c
          (get_src_port c (synscan_global_initialize_mp c) probe_num validation)
          (synscan_global_initialize_mp c) validation = probe_num := by
  have hn := num_ports_of_range c hrange
  have h1 : u16 c.source_port_last < 65536 := Nat.mod_lt _ (by decide)
  have hpos : 0 < synscan_global_initialize_mp c := by omega
  have hlt : (u32 (validation 1) + probe_num) % synscan_global_initialize_mp c
      < synscan_global_initialize_mp c := Nat.mod_lt _ hpos
  have hg : get_src_port c (synscan_global_initialize_mp c) probe_num validation
        = u16 c.source_port_first
          + (u32 (validation 1) + probe_num) % synscan_global_initialize_mp c := by
    simp only [get_src_port]
    rw [u16, Nat.mod_eq_of_lt (by omega)]
  refine ⟨hg, ?_⟩
  rw [hg]
  simp only [port_probe_index, Nat.add_sub_cancel_left]
  have hmod : (u32 (validation 1) + probe_num) % synscan_global_initialize_mp c
      = (u32 (validation 1) % synscan_global_initialize_mp c + probe_num)
          % synscan_global_initialize_mp c := by
    rw [Nat.add_mod, Nat.mod_eq_of_lt hprobe]
  rw [hmod]
  exact rotate_back _ _ _ (Nat.mod_lt _ hpos) hprobe

/-- C2: the probe that `synscan_make_mppacket` builds from `validation` carries
the sequence number `htonl(validation[0])` on the wire, and
`synscan_validate_mppacket`, called with the same `validation`, accepts a
response that passes the four other checks exactly when its acknowledgement
number on the wire is that sequence number plus 1 modulo 2^32 (0 after
0xFFFFFFFF), and rejects it for every other acknowledgement number; nothing
but `validation` is consulted. -/
theorem C2_ack_is_probe_seq_plus_one (le : Bool) (ck : Checksums) (c : state_conf)
    (num_ports : Nat) (buf : Pkt) (src_ip dst_ip : Nat) (validation : Validation)
    (probe_num : Nat) (resp : Mem) (len : Nat) :
    be32 (synscan_make_mppacket le ck c num_ports buf src_ip dst_ip validation probe_num).1.mem
        (sizeof_ether_header + sizeof_ip + off_th_seq) = htonl le (u32 (validation 0))
      ∧ synscan_validate_mppacket le c num_ports resp len validation =
        (if (ip_p resp 0 = IPPROTO_TCP ∧ 4 * ip_hl resp 0 + sizeof_tcphdr ≤ len
              ∧ be16 resp (4 * ip_hl resp 0 + off_th_sport) = u16 c.target_port
              ∧ check_dst_port c (be16 resp (4 * ip_hl resp 0 + off_th_dport))
                  num_ports validation ≠ 0)
            ∧ be32 resp (4 * ip_hl resp 0 + off_th_ack)
                = u32 (be32 (synscan_make_mppacket le ck c num_ports buf src_ip dst_ip
                    validation probe_num).1.mem
                    (sizeof_ether_header + sizeof_ip + off_th_seq) + 1)
          then 1 else 0)
      ∧ u32 (4294967295 + 1) = 0 := by
  refine ⟨make_seq_on_wire le ck c num_ports buf src_ip dst_ip validation probe_num, ?_, by decide⟩
  rw [make_seq_on_wire, validate_eq]
  simp only [and_assoc]

/-- C3: with `num_ports` as set by `synscan_global_initialize_mp` over a
configured range `source_port_first <= source_port_last`, and a probe index
below `num_ports`: the source port that `synscan_make_mppacket` puts on the
wire is `get_src_port(num_ports, probe_num, validation)`; it lies in the
configured range; `check_dst_port` accepts it with the same `num_ports` and
`validation`; it inverse-maps to the probe index it came from, which re-derives
the same port; and no other in-range probe index derives that port. -/
theorem C3_port_derivation_roundtrip (le : Bool) (ck : Checksums) (c : state_conf) (buf : Pkt)
    (src_ip dst_ip : Nat) (validation : Validation) (probe_num : Nat)
    (hrange : u16 c.source_port_first ≤ u16 c.source_port_last)
    (hprobe : probe_num < synscan_global_initialize_mp c) :
    be16 (synscan_make_mppacket le ck c (synscan_global_initialize_mp c) buf src_ip dst_ip
          validation probe_num).1.mem (sizeof_ether_header + sizeof_ip + off_th_sport)
        = get_src_port c (synscan_global_initialize_mp c) probe_num validation
      ∧ u16 c.source_port_first
          ≤ get_src_port c (synscan_global_initialize_mp c) probe_num validation
      ∧ get_src_port c (synscan_global_initialize_mp c) probe_num validation
          ≤ u16 c.source_port_last
      ∧ check_dst_port c (get_src_port c (synscan_global_initialize_mp c) probe_num validation)
          (synscan_global_initialize_mp c) validation ≠ 0
      ∧ port_probe_index c
          (get_src_port c (synscan_global_initialize_mp c) probe_num validation)
          (synscan_global_initialize_mp c) validation = probe_num
      ∧ get_src_port c (synscan_global_initialize_mp c)
          (port_probe_index c
            (get_src_port c (synscan_global_initialize_mp c) probe_num validation)
            (synscan_global_initialize_mp c) validation) validation
          = get_src_port c (synscan_global_initialize_mp c) probe_num validation
      ∧ ∀ j, j < synscan_global_initialize_mp c →
          get_src_port c (synscan_global_initialize_mp c) j validation
            = get_src_port c (synscan_global_initialize_mp c) probe_num validation →
          j = probe_num := by
  obtain ⟨hg, hi⟩ := port_index_of_src_port c validation probe_num hrange hprobe
  have hn := num_ports_of_range c hrange
  have hpos : 0 < synscan_global_initialize_mp c := by omega
  have hlt : (u32 (validation 1) + probe_num) % synscan_global_initialize_mp c
      < synscan_global_initialize_mp c := Nat.mod_lt _ hpos
  have hlo : u16 c.source_port_first
      ≤ get_src_port c (synscan_global_initialize_mp c) probe_num validation := by omega
  have hhi : get_src_port c (synscan_global_initialize_mp c) probe_num validation
      ≤ u16 c.source_port_last := by omega
  refine ⟨make_sport_on_wire le ck c _ buf src_ip dst_ip validation probe_num, hlo, hhi,
    ?_, hi, by rw [hi], ?_⟩
  · have h1 : ¬ (get_src_port c (synscan_global_initialize_mp c) probe_num validation
          < u16 c.source_port_first
        ∨ u16 c.source_port_last
          < get_src_port c (synscan_global_initialize_mp c) probe_num validation) := by omega
    simp only [check_dst_port, h1, if_false, hi, hprobe, if_true]
    decide
  · intro j hj hjp
    have hjidx := (port_index_of_src_port c validation j hrange hj).2
    rw [hjp, hi] at hjidx
    exact hjidx.symm

/-- C3 witness: the sample configuration (ports 32768 to 61000) at probe index 3. -/
theorem C3_port_derivation_roundtrip_witness :
    u16 sampleConf.source_port_first ≤ u16 sampleConf.source_port_last
      ∧ 3 < synscan_global_initialize_mp sampleConf
      ∧ get_src_port sampleConf (synscan_global_initialize_mp sampleConf) 3 sampleValidation
          = 32771
      ∧ port_probe_index sampleConf
          (get_src_port sampleConf (synscan_global_initialize_mp sampleConf) 3 sampleValidation)
          (synscan_global_initialize_mp sampleConf) sampleValidation = 3 :=
  ⟨by decide, by decide, by decide,
    (C3_port_derivation_roundtrip true ⟨fun _ _ _ _ _ => 0, fun _ _ => 0⟩ sampleConf
      ⟨fun _ => 0, []⟩ 0 0 sampleValidation 3 (by decide) (by decide)).2.2.2.2.1⟩

/-- C4 (as stated, refuted): with declared length 0 and a buffer whose protocol
byte says TCP, the function rejects, but it has read the bytes at offsets 9 and
0, which are not below the declared length. -/
theorem C4_counterexample :
    0 < 4 * ip_hl sampleResponseAck2 0 + sizeof_tcphdr
      ∧ synscan_validate_mppacket true sampleConf (synscan_global_initialize_mp sampleConf)
          sampleResponseAck2 0 sampleValidation = 0
      ∧ synscan_validate_mppacket_reads true sampleConf (synscan_global_initialize_mp sampleConf)
          sampleResponseAck2 0 sampleValidation = [9, 0]
      ∧ ¬ (∀ o ∈ synscan_validate_mppacket_reads true sampleConf
            (synscan_global_initialize_mp sampleConf) sampleResponseAck2 0 sampleValidation,
          o < 0) := by
  decide

/-- C4 (amended): for every buffer and every declared length below
`4*ip_hl + sizeof(struct tcphdr)`, `synscan_validate_mppacket` returns 0 and
reads nothing but the bytes of `ip_p` (offset 9) and `ip_hl` (offset 0) of the
IP header; so no byte at an offset `>= len` is read provided `len >= 10`. -/
theorem C4_short_buffer_rejected (le : Bool) (c : state_conf) (num_ports : Nat) (m : Mem)
    (len : Nat) (validation : Validation)
    (hshort : len < 4 * ip_hl m 0 + sizeof_tcphdr) :
    synscan_validate_mppacket le c num_ports m len validation = 0
      ∧ (∀ o ∈ synscan_validate_mppacket_reads le c num_ports m len validation,
          o = off_ip_p ∨ o = off_ip_vhl)
      ∧ (10 ≤ len → ∀ o ∈ synscan_validate_mppacket_reads le c num_ports m len validation,
          o < len) := by
  have hgt : 4 * ip_hl m 0 + sizeof_tcphdr > len := hshort
  have hreads : ∀ o ∈ synscan_validate_mppacket_reads le c num_ports m len validation,
      o = off_ip_p ∨ o = off_ip_vhl := by
    intro o ho
    unfold synscan_validate_mppacket_reads synscan_validate_mppacket_run at ho
    by_cases h1 : ip_p m 0 = IPPROTO_TCP
    · simp [h1, hgt] at ho
      exact ho
    · simp [h1] at ho
      exact Or.inl ho
  refine ⟨?_, hreads, ?_⟩
  · unfold synscan_validate_mppacket synscan_validate_mppacket_run
    by_cases h1 : ip_p m 0 = IPPROTO_TCP
    · simp [h1, hgt]
    · simp [h1]
  · intro hlen o ho
    rcases hreads o ho with h | h
    · rw [h]; simp only [off_ip_p]; omega
    · rw [h]; simp only [off_ip_vhl]; omega

/-- C4 witness: declared length 30 with a 20-byte IP header (minimum 40). -/
theorem C4_short_buffer_rejected_witness :
    30 < 4 * ip_hl sampleResponseAck2 0 + sizeof_tcphdr
      ∧ synscan_validate_mppacket true sampleConf (synscan_global_initialize_mp sampleConf)
        sampleResponseAck2 30 sampleValidation = 0 :=
  ⟨by decide,
    (C4_short_buffer_rejected true sampleConf (synscan_global_initialize_mp sampleConf)
      sampleResponseAck2 30 sampleValidation (by decide)).1⟩

/-! ## The monitor -/

theorem Dbl.le_trans_true (a b c : Dbl) (h1 : Dbl.le a b = true) (h2 : Dbl.le b c = true) :
    Dbl.le a c = true := by
  cases a <;> cases b <;> cases c <;> simp_all [Dbl.le]
  exact h1.trans h2

theorem min_step (v x : Dbl) (hv : v ≠ Dbl.nan) (hx : x ≠ Dbl.nan) :
    ((if Dbl.lt x v then x else v) = x ∨ (if Dbl.lt x v then x else v) = v)
      ∧ (if Dbl.lt x v then x else v) ≠ Dbl.nan
      ∧ Dbl.le (if Dbl.lt x v then x else v) x = true
      ∧ Dbl.le (if Dbl.lt x v then x else v) v = true := by
  cases v <;> cases x <;> simp_all [Dbl.lt, Dbl.le]
  rename_i a b
  by_cases h : b < a
  · simp [h, le_of_lt h]
  · simp [h, not_lt.mp h]

theorem min_d_three (x y z : Dbl) (hx : x ≠ Dbl.nan) (hy : y ≠ Dbl.nan) (hz : z ≠ Dbl.nan) :
    (min_d [x, y, z] 3 = x ∨ min_d [x, y, z] 3 = y ∨ min_d [x, y, z] 3 = z)
      ∧ Dbl.le (min_d [x, y, z] 3) x = true
      ∧ Dbl.le (min_d [x, y, z] 3) y = true
      ∧ Dbl.le (min_d [x, y, z] 3) z = true := by
  have e : min_d [x, y, z] 3 =
      (if Dbl.lt z (if Dbl.lt y (if Dbl.lt x Dbl.pinf then x else Dbl.pinf) then y
          else (if Dbl.lt x Dbl.pinf then x else Dbl.pinf))
        then z
        else (if Dbl.lt y (if Dbl.lt x Dbl.pinf then x else Dbl.pinf) then y
          else (if Dbl.lt x Dbl.pinf then x else Dbl.pinf))) := by
    simp [min_d, List.range, List.range.loop, Dbl.INFINITY]
  rw [e]
  have hx1 : (if Dbl.lt x Dbl.pinf then x else Dbl.pinf) = x := by
    cases x <;> simp_all [Dbl.lt]
  rw [hx1]
  obtain ⟨a1, a2, a3, a4⟩ := min_step x y hx hy
  generalize (if Dbl.lt y x then y else x) = v2 at a1 a2 a3 a4
  obtain ⟨b1, _, b3, b4⟩ := min_step v2 z a2 hz
  generalize (if Dbl.lt z v2 then z else v2) = v3 at b1 b3 b4
  refine ⟨?_, Dbl.le_trans_true _ _ _ b4 a4, Dbl.le_trans_true _ _ _ b4 a3, b3⟩
  rcases b1 with h | h
  · exact Or.inr (Or.inr h)
  · rcases a1 with h2 | h2
    · exact Or.inr (Or.inl (h.trans h2))
    · exact Or.inl (h.trans h2)

theorem extrapolate_value (n d : Nat) (a : ℚ) (hd : d ≠ 0) (ha : 0 < a) :
    Dbl.mul (Dbl.sub (Dbl.fin 1) (Dbl.div (Dbl.ofNat n) (Dbl.ofNat d)))
        (Dbl.div (Dbl.fin a) (Dbl.div (Dbl.ofNat n) (Dbl.ofNat d)))
      = if n = 0 then Dbl.pinf
        else Dbl.fin ((1 - (n : ℚ) / d) * (a / ((n : ℚ) / d))) := by
  have hdq : (d : ℚ) ≠ 0 := Nat.cast_ne_zero.mpr hd
  by_cases hn : n = 0
  · subst hn
    have ha0 : a ≠ 0 := ne_of_gt ha
    have ha1 : ¬ a < 0 := not_lt.mpr (le_of_lt ha)
    simp [Dbl.div, Dbl.ofNat, Dbl.sub, Dbl.neg, Dbl.add, Dbl.mul, Dbl.infOfSign, hdq, ha0, ha1]
  · have hnq : (n : ℚ) ≠ 0 := Nat.cast_ne_zero.mpr hn
    simp [Dbl.div, Dbl.ofNat, Dbl.sub, Dbl.neg, Dbl.add, Dbl.mul, hdq, hnq, hn, sub_eq_add_neg]

theorem remaining_list (zconf : state_conf) (zsend : state_send) (zrecv : state_recv)
    (now_ age : Dbl) (sent : Nat) (hc : zsend.complete = 0) :
    compute_remaining_time zconf zsend zrecv now_ age sent
      = min_d [remaining_by_targets zconf zsend age sent, remaining_by_runtime zconf age,
          remaining_by_results zconf zrecv age] 3 := by
  unfold compute_remaining_time remaining_by_targets remaining_by_runtime remaining_by_results
  by_cases h1 : zsend.targets = 0 <;> by_cases h2 : zconf.max_runtime = 0 <;>
    by_cases h3 : zconf.max_results = 0 <;> simp [hc, h1, h2, h3, Dbl.INFINITY]

theorem export_recv_rate (zconf : state_conf) (zsend : state_send) (zrecv : state_recv)
    (now0 now1 : Dbl) (intrnl : int_status_t) (exp : export_status_t) (it : iterator_t) :
    (export_stats zconf zsend zrecv now0 now1 intrnl exp it).2.recv_rate
      = Dbl.div (Dbl.ofNat (u32sub (u32 zrecv.success_unique) intrnl.last_recv_net_success))
          (Dbl.sub now0 intrnl.last_now) := by
  by_cases h1 : 0 ≤ zconf.app_success_index <;> by_cases h2 : u32 it.sent = 0 <;>
    by_cases h3 : zsend.complete = 0 <;> simp [export_stats, h1, h2, h3]

theorem export_hitrate (zconf : state_conf) (zsend : state_send) (zrecv : state_recv)
    (now0 now1 : Dbl) (intrnl : int_status_t) (exp : export_status_t) (it : iterator_t) :
    (export_stats zconf zsend zrecv now0 now1 intrnl exp it).2.hitrate
      = if u32 it.sent = 0 then Dbl.fin 0
        else Dbl.div (Dbl.mul (Dbl.ofNat (u32 zrecv.success_unique)) (Dbl.fin 100))
          (Dbl.ofNat (u32 it.sent)) := by
  by_cases h1 : 0 ≤ zconf.app_success_index <;> by_cases h2 : u32 it.sent = 0 <;>
    by_cases h3 : zsend.complete = 0 <;> simp [export_stats, h1, h2, h3]

theorem export_send_rate (zconf : state_conf) (zsend : state_send) (zrecv : state_recv)
    (now0 now1 : Dbl) (intrnl : int_status_t) (exp : export_status_t) (it : iterator_t) :
    (export_stats zconf zsend zrecv now0 now1 intrnl exp it).2.send_rate
      = if zsend.complete = 0 then
          Dbl.div (Dbl.ofNat (u32sub (u32 it.sent) intrnl.last_sent))
            (Dbl.sub now0 intrnl.last_now)
        else exp.send_rate := by
  by_cases h1 : 0 ≤ zconf.app_success_index <;> by_cases h2 : u32 it.sent = 0 <;>
    by_cases h3 : zsend.complete = 0 <;> simp [export_stats, h1, h2, h3]

theorem export_pcap_drop_last (zconf : state_conf) (zsend : state_send) (zrecv : state_recv)
    (now0 now1 : Dbl) (intrnl : int_status_t) (exp : export_status_t) (it : iterator_t) :
    (export_stats zconf zsend zrecv now0 now1 intrnl exp it).2.pcap_drop_last
      = Dbl.div (Dbl.ofNat (u32sub (u32 (u32 zrecv.pcap_drop + u32 zrecv.pcap_ifdrop))
          intrnl.last_pcap_drop)) (Dbl.sub now0 intrnl.last_now) := by
  by_cases h1 : 0 ≤ zconf.app_success_index <;> by_cases h2 : u32 it.sent = 0 <;>
    by_cases h3 : zsend.complete = 0 <;> simp [export_stats, h1, h2, h3]

theorem export_recv_total_rate (zconf : state_conf) (zsend : state_send) (zrecv : state_recv)
    (now0 now1 : Dbl) (intrnl : int_status_t) (exp : export_status_t) (it : iterator_t) :
    (export_stats zconf zsend zrecv now0 now1 intrnl exp it).2.recv_total_rate
      = Dbl.div (Dbl.ofNat (u32sub (u32 zrecv.pcap_recv) intrnl.last_recv_total))
          (Dbl.sub now0 intrnl.last_now) := by
  by_cases h1 : 0 ≤ zconf.app_success_index <;> by_cases h2 : u32 it.sent = 0 <;>
    by_cases h3 : zsend.complete = 0 <;> simp [export_stats, h1, h2, h3]

theorem export_fail_last (zconf : state_conf) (zsend : state_send) (zrecv : state_recv)
    (now0 now1 : Dbl) (intrnl : int_status_t) (exp : export_status_t) (it : iterator_t) :
    (export_stats zconf zsend zrecv now0 now1 intrnl exp it).2.fail_last
      = Dbl.div (Dbl.ofNat (u32sub (u32 zsend.sendto_failures) intrnl.last_send_failures))
          (Dbl.sub now0 intrnl.last_now) := by
  by_cases h1 : 0 ≤ zconf.app_success_index <;> by_cases h2 : u32 it.sent = 0 <;>
    by_cases h3 : zsend.complete = 0 <;> simp [export_stats, h1, h2, h3]

theorem u32sub_of_le (cur prev : Nat) (h : u32 prev ≤ u32 cur) :
    ((u32sub cur prev : Nat) : ℚ) = (u32 cur : ℚ) - (u32 prev : ℚ) := by
  have e : u32sub cur prev = u32 cur - u32 prev := by
    simp only [u32sub, u32] at h ⊢
    omega
  rw [e, Nat.cast_sub h]

theorem rate_mod32_div (cur prev : Nat) (d : ℚ) (hd : 0 < d) :
    rate_mod32 (Dbl.div (Dbl.ofNat (u32sub cur prev)) (Dbl.fin d)) cur prev d := by
  have hne : d ≠ 0 := ne_of_gt hd
  have e : Dbl.div (Dbl.ofNat (u32sub cur prev)) (Dbl.fin d)
      = Dbl.fin ((u32sub cur prev : ℚ) / d) := by
    simp [Dbl.div, Dbl.ofNat, hne]
  refine ⟨?_, e, ?_⟩
  · rw [e]
    simp only [Dbl.le, decide_eq_true_eq]
    exact div_nonneg (Nat.cast_nonneg _) (le_of_lt hd)
  · intro h
    rw [e, u32sub_of_le cur prev h]

/-- C5: while sending is not complete, `compute_remaining_time` returns the
minimum of the three projections, an unmet one counting as `+inf`, whenever
none of them is NaN, which is so for every finite positive age; the
projections are (a) `(1 - sent/targets) * (age / (sent/targets)) + cooldown`,
(b) `(max_runtime - age) + cooldown` and (c)
`(1 - s/max_results) * (age / (s/max_results))` without cooldown.  With 1000
targets, 500 sent, age 100 and cooldown 0 the result is 100; with maximum
runtime 50, age 40 and cooldown 5 it is 15. -/
theorem C5_remaining_time_is_minimum :
    (∀ (zconf : state_conf) (zsend : state_send) (zrecv : state_recv) (now_ age : Dbl)
        (sent : Nat),
        zsend.complete = 0 →
        remaining_by_targets zconf zsend age sent ≠ Dbl.nan →
        remaining_by_runtime zconf age ≠ Dbl.nan →
        remaining_by_results zconf zrecv age ≠ Dbl.nan →
        (compute_remaining_time zconf zsend zrecv now_ age sent
              = remaining_by_targets zconf zsend age sent
            ∨ compute_remaining_time zconf zsend zrecv now_ age sent
              = remaining_by_runtime zconf age
            ∨ compute_remaining_time zconf zsend zrecv now_ age sent
              = remaining_by_results zconf zrecv age)
          ∧ Dbl.le (compute_remaining_time zconf zsend zrecv now_ age sent)
              (remaining_by_targets zconf zsend age sent) = true
          ∧ Dbl.le (compute_remaining_time zconf zsend zrecv now_ age sent)
              (remaining_by_runtime zconf age) = true
          ∧ Dbl.le (compute_remaining_time zconf zsend zrecv now_ age sent)
              (remaining_by_results zconf zrecv age) = true)
      ∧ (∀ (zconf : state_conf) (zsend : state_send) (zrecv : state_recv) (a : ℚ) (sent : Nat),
          0 < a →
          remaining_by_targets zconf zsend (Dbl.fin a) sent
              = (if zsend.targets = 0 ∨ sent = 0 then Dbl.pinf
                else Dbl.fin ((1 - (sent : ℚ) / zsend.targets)
                  * (a / ((sent : ℚ) / zsend.targets)) + zconf.cooldown_secs))
            ∧ remaining_by_runtime zconf (Dbl.fin a)
              = (if zconf.max_runtime = 0 then Dbl.pinf
                else Dbl.fin (((zconf.max_runtime : ℚ) - a) + zconf.cooldown_secs))
            ∧ remaining_by_results zconf zrecv (Dbl.fin a)
              = (if zconf.max_results = 0 ∨ u32 zrecv.success_unique = 0 then Dbl.pinf
                else Dbl.fin ((1 - (u32 zrecv.success_unique : ℚ) / zconf.max_results)
                  * (a / ((u32 zrecv.success_unique : ℚ) / zconf.max_results)))))
      ∧ compute_remaining_time { sampleConf with cooldown_secs := 0 } sampleSend sampleRecv
          (Dbl.fin 0) (Dbl.fin 100) 500 = Dbl.fin 100
      ∧ compute_remaining_time { sampleConf with cooldown_secs := 5, max_runtime := 50 }
          sampleSend sampleRecv (Dbl.fin 0) (Dbl.fin 40) 500 = Dbl.fin 15 := by
  refine ⟨?_, ?_, ?_, ?_⟩
  · intro zconf zsend zrecv now_ age sent hc ha hb hr
    rw [remaining_list zconf zsend zrecv now_ age sent hc]
    exact min_d_three _ _ _ ha hb hr
  · intro zconf zsend zrecv a sent ha
    refine ⟨?_, ?_, ?_⟩
    · unfold remaining_by_targets
      by_cases ht : zsend.targets = 0
      · simp [ht]
      · rw [extrapolate_value sent zsend.targets a ht ha]
        by_cases hs : sent = 0
        · simp [ht, hs, Dbl.add, Dbl.ofInt]
        · simp [ht, hs, Dbl.add, Dbl.ofInt]
    · unfold remaining_by_runtime
      by_cases hm : zconf.max_runtime = 0
      · simp [hm]
      · simp [hm, Dbl.add, Dbl.sub, Dbl.neg, Dbl.ofInt, Dbl.ofNat, sub_eq_add_neg]
    · unfold remaining_by_results
      by_cases hm : zconf.max_results = 0
      · simp [hm]
      · rw [extrapolate_value (u32 zrecv.success_unique) zconf.max_results a hm ha]
        by_cases hs : u32 zrecv.success_unique = 0
        · simp [hm, hs]
        · simp [hm, hs]
  · rw [remaining_list _ _ _ _ _ _ rfl]
    simp [remaining_by_targets, remaining_by_runtime, remaining_by_results, sampleConf,
      sampleSend, sampleRecv, min_d, List.range, List.range.loop, Dbl.div, Dbl.mul, Dbl.sub,
      Dbl.add, Dbl.neg, Dbl.ofNat, Dbl.ofInt, Dbl.lt, Dbl.INFINITY, u32]
    norm_num
  · rw [remaining_list _ _ _ _ _ _ rfl]
    simp [remaining_by_targets, remaining_by_runtime, remaining_by_results, sampleConf,
      sampleSend, sampleRecv, min_d, List.range, List.range.loop, Dbl.div, Dbl.mul, Dbl.sub,
      Dbl.add, Dbl.neg, Dbl.ofNat, Dbl.ofInt, Dbl.lt, Dbl.INFINITY, u32]
    norm_num

/-- C5 witness: 1000 targets, 500 sent, age 100, cooldown 0, no caps. -/
theorem C5_remaining_time_is_minimum_witness :
    sampleSend.complete = 0
      ∧ Dbl.le (compute_remaining_time { sampleConf with cooldown_secs := 0 } sampleSend sampleRecv
          (Dbl.fin 0) (Dbl.fin 100) 500)
          (remaining_by_runtime { sampleConf with cooldown_secs := 0 } (Dbl.fin 100)) = true :=
  ⟨rfl,
    (C5_remaining_time_is_minimum.1 { sampleConf with cooldown_secs := 0 } sampleSend sampleRecv
      (Dbl.fin 0) (Dbl.fin 100) 500 rfl
      (by simp [remaining_by_targets, sampleSend, sampleConf, Dbl.div, Dbl.mul, Dbl.sub, Dbl.add,
            Dbl.neg, Dbl.ofNat, Dbl.ofInt])
      (by simp [remaining_by_runtime, sampleConf])
      (by simp [remaining_by_results, sampleConf])).2.2.1⟩

/-- C6 (as stated, refuted): with the unique-success counter at 3 after a
snapshot value of 5 and `delta = 1`, `export_stats` reports the receive rate
4294967294, not the mathematical difference `(3 - 5)/1`. -/
theorem C6_counterexample :
    Dbl.sub (Dbl.fin 1) sampleInternal.last_now = Dbl.fin 1
      ∧ (export_stats sampleConf sampleSend sampleRecvLow (Dbl.fin 1) (Dbl.fin 1) sampleInternal
          zeroExport sampleIterator).2.recv_rate = Dbl.fin 4294967294
      ∧ ¬ rate_as_stated
          (export_stats sampleConf sampleSend sampleRecvLow (Dbl.fin 1) (Dbl.fin 1) sampleInternal
            zeroExport sampleIterator).2.recv_rate
          sampleRecvLow.success_unique sampleInternal.last_recv_net_success 1 := by
  have e : (export_stats sampleConf sampleSend sampleRecvLow (Dbl.fin 1) (Dbl.fin 1)
      sampleInternal zeroExport sampleIterator).2.recv_rate = Dbl.fin 4294967294 := by
    rw [export_recv_rate]
    simp [sampleRecvLow, sampleInternal, u32sub, u32, Dbl.sub, Dbl.neg, Dbl.add, Dbl.div,
      Dbl.ofNat]
  refine ⟨by simp [sampleInternal, Dbl.sub, Dbl.neg, Dbl.add], e, ?_⟩
  rw [e]
  simp only [rate_as_stated, sampleRecvLow, sampleInternal]
  norm_num

/-- C6 (amended): for every tick of `export_stats` with `delta > 0`, each of
`recv_rate`, `recv_total_rate`, `pcap_drop_last`, `fail_last`, and `send_rate`
while sending is active, is not negative and equals the `uint32_t` difference
`(current_total - previous_total) mod 2^32` divided by `delta`, which is
`(current_total - previous_total)/delta` whenever the counter has not decreased
since the internal snapshot. -/
theorem C6_rates_mod32 (zconf : state_conf) (zsend : state_send) (zrecv : state_recv)
    (now0 now1 : Dbl) (intrnl : int_status_t) (exp : export_status_t) (it : iterator_t) (d : ℚ)
    (hdelta : Dbl.sub now0 intrnl.last_now = Dbl.fin d) (hd : 0 < d) :
    rate_mod32 (export_stats zconf zsend zrecv now0 now1 intrnl exp it).2.recv_rate
        (u32 zrecv.success_unique) intrnl.last_recv_net_success d
      ∧ rate_mod32 (export_stats zconf zsend zrecv now0 now1 intrnl exp it).2.recv_total_rate
        (u32 zrecv.pcap_recv) intrnl.last_recv_total d
      ∧ rate_mod32 (export_stats zconf zsend zrecv now0 now1 intrnl exp it).2.pcap_drop_last
        (u32 (u32 zrecv.pcap_drop + u32 zrecv.pcap_ifdrop)) intrnl.last_pcap_drop d
      ∧ rate_mod32 (export_stats zconf zsend zrecv now0 now1 intrnl exp it).2.fail_last
        (u32 zsend.sendto_failures) intrnl.last_send_failures d
      ∧ (zsend.complete = 0 →
          rate_mod32 (export_stats zconf zsend zrecv now0 now1 intrnl exp it).2.send_rate
            (u32 it.sent) intrnl.last_sent d)
      ∧ (export_stats zconf zsend zrecv now0 now1 intrnl exp it).2.recv_success_unique
          = u32 zrecv.success_unique
      ∧ (export_stats zconf zsend zrecv now0 now1 intrnl exp it).2.total_recv
          = u32 zrecv.pcap_recv
      ∧ (export_stats zconf zsend zrecv now0 now1 intrnl exp it).2.pcap_drop_total
          = u32 (u32 zrecv.pcap_drop + u32 zrecv.pcap_ifdrop)
      ∧ (export_stats zconf zsend zrecv now0 now1 intrnl exp it).2.fail_total
          = u32 zsend.sendto_failures
      ∧ (export_stats zconf zsend zrecv now0 now1 intrnl exp it).2.total_sent = u32 it.sent := by
  refine ⟨?_, ?_, ?_, ?_, ?_, ?_, ?_, ?_, ?_, ?_⟩
  · rw [export_recv_rate, hdelta]
    exact rate_mod32_div _ _ d hd
  · rw [export_recv_total_rate, hdelta]
    exact rate_mod32_div _ _ d hd
  · rw [export_pcap_drop_last, hdelta]
    exact rate_mod32_div _ _ d hd
  · rw [export_fail_last, hdelta]
    exact rate_mod32_div _ _ d hd
  · intro hc
    rw [export_send_rate, if_pos hc, hdelta]
    exact rate_mod32_div _ _ d hd
  all_goals
    by_cases h1 : 0 ≤ zconf.app_success_index <;> by_cases h2 : u32 it.sent = 0 <;>
      by_cases h3 : zsend.complete = 0 <;> simp [export_stats, h1, h2, h3]

/-- C6 witness: the sample tick, one second after the internal snapshot. -/
theorem C6_rates_mod32_witness :
    Dbl.sub (Dbl.fin 1) sampleInternal.last_now = Dbl.fin 1 ∧ (0 : ℚ) < 1
      ∧ rate_mod32
        (export_stats sampleConf sampleSend sampleRecv (Dbl.fin 1) (Dbl.fin 1) sampleInternal
          zeroExport sampleIterator).2.recv_rate
        (u32 sampleRecv.success_unique) sampleInternal.last_recv_net_success 1 :=
  ⟨by simp [sampleInternal, Dbl.sub, Dbl.neg, Dbl.add], by norm_num,
    (C6_rates_mod32 sampleConf sampleSend sampleRecv (Dbl.fin 1) (Dbl.fin 1) sampleInternal
      zeroExport sampleIterator 1 (by simp [sampleInternal, Dbl.sub, Dbl.neg, Dbl.add])
      (by norm_num)).1⟩

/-- C7 (as stated, refuted): with 100 probes sent and 80 responses captured, 60
of them unique successes, `export_stats` reports the hit rate 60, not 75. -/
theorem C7_counterexample :
    u32 sampleIterator.sent = 100 ∧ u32 sampleRecv.pcap_recv = 80
      ∧ u32 sampleRecv.success_unique = 60
      ∧ (export_stats sampleConf sampleSend sampleRecv (Dbl.fin 10) (Dbl.fin 10) sampleInternal
          zeroExport sampleIterator).2.hitrate = Dbl.fin 60
      ∧ (export_stats sampleConf sampleSend sampleRecv (Dbl.fin 10) (Dbl.fin 10) sampleInternal
          zeroExport sampleIterator).2.hitrate ≠ Dbl.fin 75 := by
  have e : (export_stats sampleConf sampleSend sampleRecv (Dbl.fin 10) (Dbl.fin 10)
      sampleInternal zeroExport sampleIterator).2.hitrate = Dbl.fin 60 := by
    rw [export_hitrate]
    simp [sampleRecv, sampleIterator, u32, Dbl.div, Dbl.mul, Dbl.ofNat]
  refine ⟨by decide, by decide, by decide, e, ?_⟩
  rw [e]
  simp only [ne_eq, Dbl.fin.injEq]
  norm_num

/-- C7 (amended): the hit rate that `export_stats` reports is
`100*recv_success/sent_total`, and 0 when nothing has been sent; for a tick
with 100 probes sent and 60 unique successes (whatever the number of captured
responses) it is 60. -/
theorem C7_hitrate :
    (∀ (zconf : state_conf) (zsend : state_send) (zrecv : state_recv) (now0 now1 : Dbl)
        (intrnl : int_status_t) (exp : export_status_t) (it : iterator_t),
        (export_stats zconf zsend zrecv now0 now1 intrnl exp it).2.hitrate
          = if u32 it.sent = 0 then Dbl.fin 0
            else Dbl.fin (100 * (u32 zrecv.success_unique : ℚ) / (u32 it.sent : ℚ)))
      ∧ (∀ (zconf : state_conf) (zsend : state_send) (zrecv : state_recv) (now0 now1 : Dbl)
          (intrnl : int_status_t) (exp : export_status_t) (it : iterator_t),
          u32 it.sent = 100 → u32 zrecv.success_unique = 60 →
          (export_stats zconf zsend zrecv now0 now1 intrnl exp it).2.hitrate = Dbl.fin 60) := by
  have general : ∀ (zconf : state_conf) (zsend : state_send) (zrecv : state_recv)
      (now0 now1 : Dbl) (intrnl : int_status_t) (exp : export_status_t) (it : iterator_t),
      (export_stats zconf zsend zrecv now0 now1 intrnl exp it).2.hitrate
        = if u32 it.sent = 0 then Dbl.fin 0
          else Dbl.fin (100 * (u32 zrecv.success_unique : ℚ) / (u32 it.sent : ℚ)) := by
    intro zconf zsend zrecv now0 now1 intrnl exp it
    rw [export_hitrate]
    by_cases h : u32 it.sent = 0
    · simp [h]
    · have hq : ((u32 it.sent : ℕ) : ℚ) ≠ 0 := Nat.cast_ne_zero.mpr h
      simp [h, hq, Dbl.div, Dbl.mul, Dbl.ofNat, mul_comm]
  refine ⟨general, ?_⟩
  intro zconf zsend zrecv now0 now1 intrnl exp it hs hr
  rw [general, hs, hr]
  norm_num

/-- C7 witness: the sample tick with 100 sent and 60 unique successes. -/
theorem C7_hitrate_witness :
    u32 sampleIterator.sent = 100 ∧ u32 sampleRecv.success_unique = 60
      ∧ (export_stats sampleConf sampleSend sampleRecv (Dbl.fin 10) (Dbl.fin 10) sampleInternal
          zeroExport sampleIterator).2.hitrate = Dbl.fin 60 :=
  ⟨by decide, by decide,
    C7_hitrate.2 sampleConf sampleSend sampleRecv (Dbl.fin 10) (Dbl.fin 10) sampleInternal
      zeroExport sampleIterator (by decide) (by decide)⟩

theorem drop_warning_iff (exp : export_status_t) :
    (log_drop_warnings exp).any Warning.isDrop
      = Dbl.gt (Dbl.div exp.pcap_drop_last exp.recv_rate) (Dbl.fin (5 / 100)) := by
  unfold log_drop_warnings
  by_cases h1 : Dbl.gt (Dbl.div exp.pcap_drop_last exp.recv_rate) (Dbl.fin (5 / 100)) = true <;>
    by_cases h2 : Dbl.gt (Dbl.div exp.fail_last exp.send_rate) (Dbl.fin (1 / 100)) = true <;>
    simp [h1, h2, Warning.isDrop]

/-- C8: for every export snapshot with `recv_rate > 0`, `log_drop_warnings`
logs the drop-rate warning exactly when `pcap_drop_last / recv_rate > 0.05`,
whatever `fail_last` and `send_rate` are; for finite values a quotient of 0.06
fires it, and a quotient of 0.04 or of exactly 0.05 does not. -/
theorem C8_drop_warning_threshold (exp : export_status_t) (r : ℚ)
    (hrate : exp.recv_rate = Dbl.fin r) (hr : 0 < r) :
    ((log_drop_warnings exp).any Warning.isDrop = true
        ↔ Dbl.gt (Dbl.div exp.pcap_drop_last exp.recv_rate) (Dbl.fin (5 / 100)) = true)
      ∧ (∀ f s : Dbl,
          (log_drop_warnings { exp with fail_last := f, send_rate := s }).any Warning.isDrop
            = (log_drop_warnings exp).any Warning.isDrop)
      ∧ (∀ p : ℚ, exp.pcap_drop_last = Dbl.fin p →
          ((log_drop_warnings exp).any Warning.isDrop = true ↔ p / r > 5 / 100)
            ∧ (p / r = 6 / 100 → (log_drop_warnings exp).any Warning.isDrop = true)
            ∧ (p / r = 4 / 100 → (log_drop_warnings exp).any Warning.isDrop = false)
            ∧ (p / r = 5 / 100 → (log_drop_warnings exp).any Warning.isDrop = false)) := by
  have hne : r ≠ 0 := ne_of_gt hr
  refine ⟨by rw [drop_warning_iff], ?_, ?_⟩
  · intro f s
    rw [drop_warning_iff, drop_warning_iff]
  · intro p hp
    have key : ((log_drop_warnings exp).any Warning.isDrop = true ↔ p / r > 5 / 100) := by
      rw [drop_warning_iff, hp, hrate]
      simp [Dbl.gt, Dbl.lt, Dbl.div, hne]
    refine ⟨key, ?_, ?_, ?_⟩
    · intro h
      rw [key, h]
      norm_num
    · intro h
      rw [← Bool.not_eq_true, key, h]
      norm_num
    · intro h
      rw [← Bool.not_eq_true, key, h]
      norm_num

/-- C8 witness: 6 drops per second against 100 responses per second. -/
theorem C8_drop_warning_threshold_witness :
    ({ zeroExport with recv_rate := Dbl.fin 100, pcap_drop_last := Dbl.fin 6 }
        : export_status_t).recv_rate = Dbl.fin 100
      ∧ (0 : ℚ) < 100
      ∧ (log_drop_warnings
          { zeroExport with recv_rate := Dbl.fin 100, pcap_drop_last := Dbl.fin 6 }).any
            Warning.isDrop = true :=
  ⟨rfl, by norm_num,
    ((C8_drop_warning_threshold
      { zeroExport with recv_rate := Dbl.fin 100, pcap_drop_last := Dbl.fin 6 } 100 rfl
      (by norm_num)).2.2 6 rfl).2.1 (by norm_num)⟩

/-! ## Classification and lengths -/

theorem be16_lt (m : Mem) (a : Nat) : be16 m a < 65536 := by
  have h0 : rd8 m a < 256 := Nat.mod_lt _ (by decide)
  have h1 : rd8 m (a + 1) < 256 := Nat.mod_lt _ (by decide)
  simp only [be16]
  omega

theorem be32_lt (m : Mem) (a : Nat) : be32 m a < 4294967296 := by
  have h0 : rd8 m a < 256 := Nat.mod_lt _ (by decide)
  have h1 : rd8 m (a + 1) < 256 := Nat.mod_lt _ (by decide)
  have h2 : rd8 m (a + 2) < 256 := Nat.mod_lt _ (by decide)
  have h3 : rd8 m (a + 3) < 256 := Nat.mod_lt _ (by decide)
  simp only [be32]
  omega

theorem u64_be16 (m : Mem) (a : Nat) : u64 (be16 m a) = be16 m a := by
  have := be16_lt m a
  simp only [u64]
  omega

theorem u64_be32 (m : Mem) (a : Nat) : u64 (be32 m a) = be32 m a := by
  have := be32_lt m a
  simp only [u64]
  omega

/-- C9: for every captured frame, `synscan_process_mppacket` adds exactly seven
fields, in the order and with the names of the schema `fields` of the
descriptor (whose `numfields` is 7): `sport`, `dport`, `seqnum`, `acknum` and
`window` hold the host-order (wire big-endian) values of the TCP header
members, then `classification` and `success` are `"rst"` and 0 when the RST
flag is set and `"synack"` and 1 otherwise, as for the SYN-ACK flag byte 18. -/
theorem C9_process_fields (le : Bool) (packet : Mem) (len : Nat) :
    synscan_process_mppacket le packet len [] =
        [ { name := "sport", value := field_val.uint64
              (be16 packet (sizeof_ether_header + 4 * ip_hl packet sizeof_ether_header
                + off_th_sport)) },
          { name := "dport", value := field_val.uint64
              (be16 packet (sizeof_ether_header + 4 * ip_hl packet sizeof_ether_header
                + off_th_dport)) },
          { name := "seqnum", value := field_val.uint64
              (be32 packet (sizeof_ether_header + 4 * ip_hl packet sizeof_ether_header
                + off_th_seq)) },
          { name := "acknum", value := field_val.uint64
              (be32 packet (sizeof_ether_header + 4 * ip_hl packet sizeof_ether_header
                + off_th_ack)) },
          { name := "window", value := field_val.uint64
              (be16 packet (sizeof_ether_header + 4 * ip_hl packet sizeof_ether_header
                + off_th_win)) },
          { name := "classification", value := field_val.string
              (if th_flags packet (sizeof_ether_header + 4 * ip_hl packet sizeof_ether_header)
                  &&& TH_RST ≠ 0 then "rst" else "synack") },
          { name := "success", value := field_val.uint64
              (if th_flags packet (sizeof_ether_header + 4 * ip_hl packet sizeof_ether_header)
                  &&& TH_RST ≠ 0 then 0 else 1) } ]
      ∧ (synscan_process_mppacket le packet len []).map field_t.name
          = module_mptcp_synscan.fields.map fielddef_t.name
      ∧ (synscan_process_mppacket le packet len []).length = module_mptcp_synscan.numfields
      ∧ module_mptcp_synscan.numfields = 7
      ∧ module_mptcp_synscan.fields.map fielddef_t.name
          = ["sport", "dport", "seqnum", "acknum", "window", "classification", "success"]
      ∧ (18 &&& TH_RST = 0 ∧ 18 = TH_SYN ||| 16) := by
  have e : synscan_process_mppacket le packet len [] =
      [ { name := "sport", value := field_val.uint64
            (be16 packet (sizeof_ether_header + 4 * ip_hl packet sizeof_ether_header
              + off_th_sport)) },
        { name := "dport", value := field_val.uint64
            (be16 packet (sizeof_ether_header + 4 * ip_hl packet sizeof_ether_header
              + off_th_dport)) },
        { name := "seqnum", value := field_val.uint64
            (be32 packet (sizeof_ether_header + 4 * ip_hl packet sizeof_ether_header
              + off_th_seq)) },
        { name := "acknum", value := field_val.uint64
            (be32 packet (sizeof_ether_header + 4 * ip_hl packet sizeof_ether_header
              + off_th_ack)) },
        { name := "window", value := field_val.uint64
            (be16 packet (sizeof_ether_header + 4 * ip_hl packet sizeof_ether_header
              + off_th_win)) },
        { name := "classification", value := field_val.string
            (if th_flags packet (sizeof_ether_header + 4 * ip_hl packet sizeof_ether_header)
                &&& TH_RST ≠ 0 then "rst" else "synack") },
        { name := "success", value := field_val.uint64
            (if th_flags packet (sizeof_ether_header + 4 * ip_hl packet sizeof_ether_header)
                &&& TH_RST ≠ 0 then 0 else 1) } ] := by
    unfold synscan_process_mppacket
    simp only [ntohs, ntohl, htons_rd16, htonl_rd32, fs_add_uint64, fs_add_string, u64_be16,
      u64_be32, List.nil_append, List.append_assoc, List.singleton_append]
    by_cases h : th_flags packet (sizeof_ether_header + 4 * ip_hl packet sizeof_ether_header)
        &&& TH_RST ≠ 0
    · simp [h, u64]
    · simp [h, u64]
  refine ⟨e, ?_, ?_, rfl, rfl, by decide⟩
  · rw [e]; simp [module_mptcp_synscan, fields]
  · rw [e]; simp [module_mptcp_synscan]

theorem rd8_wr8_same (m : Mem) (a v : Nat) : rd8 (wr8 m a v) a = v % 256 := by
  simp [rd8, wr8]

theorem rd8_congr (m m2 : Mem) (a : Nat) (h : m a = m2 a) : rd8 m a = rd8 m2 a := by
  simp only [rd8, h]

theorem th_off_stBits (p : Pkt) (tcp v : Nat) :
    th_off (stBits p (tcp + off_th_offx2) 4 4 v).mem tcp = v % 16 := by
  have h : rd8 p.mem (tcp + off_th_offx2) < 256 := Nat.mod_lt _ (by decide)
  simp only [th_off, stBits, st8, rd8_wr8_same]
  norm_num
  omega

theorem th_off_make_tcp_header (le : Bool) (p : Pkt) (tcp dst_port : Nat) :
    th_off (make_tcp_header le p tcp dst_port).mem tcp = sizeof_tcphdr / 4 := by
  have e : th_off (make_tcp_header le p tcp dst_port).mem tcp
      = th_off (stBits p (tcp + off_th_offx2) 4 4 (sizeof_tcphdr / 4)).mem tcp := by
    simp only [th_off]
    congr 1
    apply rd8_congr
    simp only [make_tcp_header, stN, st8, off_th_offx2, off_th_dport, off_th_flags]
    rw [wrN_other _ _ _ _ _ _ (by omega), wr8_other _ _ _ _ (by omega)]
  rw [e, th_off_stBits]
  decide

theorem init_th_off (le : Bool) (buf : Pkt) (src gw : List Nat) (dst_port : Nat) :
    th_off (synscan_init_perthread_mp le buf src gw dst_port).1.mem
        (sizeof_ether_header + sizeof_ip)
      = sizeof_tcphdr / 4 + MPTCP_SUB_LEN_CAPABLE_SYN / 4 := by
  simp only [synscan_init_perthread_mp, Nat.zero_add]
  rw [th_off_stBits, th_off_make_tcp_header]
  decide

theorem init_ip_len (le : Bool) (buf : Pkt) (src gw : List Nat) (dst_port : Nat) :
    be16 (synscan_init_perthread_mp le buf src gw dst_port).1.mem
        (sizeof_ether_header + off_ip_len)
      = sizeof_ip + sizeof_tcphdr + MPTCP_SUB_LEN_CAPABLE_SYN := by
  have e : be16 (synscan_init_perthread_mp le buf src gw dst_port).1.mem
        (sizeof_ether_header + off_ip_len)
      = be16 (wrN le 2
          (stBits (stBits (make_eth_header (memset buf 0 MAX_PACKET_SIZE) 0 src gw)
            (sizeof_ether_header + off_ip_vhl) 0 4 (sizeof_ip / 4))
            (sizeof_ether_header + off_ip_vhl) 4 4 4).mem
          (sizeof_ether_header + off_ip_len)
          (htons le (sizeof_ip + sizeof_tcphdr + MPTCP_SUB_LEN_CAPABLE_SYN)))
        (sizeof_ether_header + off_ip_len) := by
    apply be16_congr
    intro i h1 h2
    simp only [sizeof_ether_header, off_ip_len] at h1 h2
    simp only [synscan_init_perthread_mp, make_tcp_header, make_ip_header, stN, st8, stBits,
      sizeof_ether_header, sizeof_ip, off_th_offx2, off_th_dport, off_th_flags, off_ip_p,
      off_ip_len, off_ip_vhl, Nat.zero_add]
    rw [wr8_other _ _ _ _ (by omega), wrN_other _ _ _ _ _ _ (by omega),
      wr8_other _ _ _ _ (by omega), wr8_other _ _ _ _ (by omega),
      wr8_other _ _ _ _ (by omega)]
  rw [e, be16_wrN2, htons_htons]
  decide

theorem make_written (le : Bool) (ck : Checksums) (c : state_conf) (num_ports : Nat)
    (buf : Pkt) (src_ip dst_ip : Nat) (validation : Validation) (probe_num : Nat) :
    (synscan_make_mppacket le ck c num_ports buf src_ip dst_ip validation probe_num).1.written
      = buf.written ++ [26, 27, 28, 29, 30, 31, 32, 33, 34, 35, 38, 39, 40, 41, 50, 51,
          54, 58, 59, 60, 61, 62, 63, 64, 65, 55, 56, 56, 57, 57, 57, 57, 50, 51,
          24, 25, 24, 25] := by
  simp [synscan_make_mppacket, stN, st8, stBits, List.range, List.range.loop,
    sizeof_ether_header, sizeof_ip, sizeof_tcphdr, off_th_seq, off_th_sum, off_ip_sum,
    off_ip_src, off_ip_dst, off_th_sport]

/-- C10: the declared wire length of the descriptor is what the module
produces.  `packet_length` is 66, the 14 bytes of the Ethernet header plus the
IP total length that `synscan_init_perthread_mp` writes, which is
`20 + 20 + 12 = 52`; the TCP data offset after init is `5 + 12/4 = 8` words,
that is the 32 bytes of TCP header plus option; and `synscan_make_mppacket`
stores only below offset 66, the bytes it stores from the start of the option
on being exactly the 12 option bytes at offsets 54 to 65. -/
theorem C10_declared_length (le : Bool) (buf : Pkt) (src gw : List Nat) (dst_port : Nat)
    (ck : Checksums) (c : state_conf) (num_ports : Nat) (m : Mem) (src_ip dst_ip : Nat)
    (validation : Validation) (probe_num : Nat) :
    module_mptcp_synscan.packet_length = 66
      ∧ be16 (synscan_init_perthread_mp le buf src gw dst_port).1.mem
          (sizeof_ether_header + off_ip_len) = 52
      ∧ module_mptcp_synscan.packet_length
          = sizeof_ether_header
            + be16 (synscan_init_perthread_mp le buf src gw dst_port).1.mem
                (sizeof_ether_header + off_ip_len)
      ∧ sizeof_ip + sizeof_tcphdr + MPTCP_SUB_LEN_CAPABLE_SYN = 52
      ∧ th_off (synscan_init_perthread_mp le buf src gw dst_port).1.mem
          (sizeof_ether_header + sizeof_ip) = 8
      ∧ 4 * th_off (synscan_init_perthread_mp le buf src gw dst_port).1.mem
          (sizeof_ether_header + sizeof_ip) = sizeof_tcphdr + MPTCP_SUB_LEN_CAPABLE_SYN
      ∧ (synscan_make_mppacket le ck c num_ports { mem := m, written := [] } src_ip dst_ip
          validation probe_num).1.written.all
            (fun o => decide (o < module_mptcp_synscan.packet_length)) = true
      ∧ (∀ o : Nat,
          (o ∈ (synscan_make_mppacket le ck c num_ports { mem := m, written := [] } src_ip
                dst_ip validation probe_num).1.written
              ∧ sizeof_ether_header + sizeof_ip + sizeof_tcphdr ≤ o)
            ↔ (sizeof_ether_header + sizeof_ip + sizeof_tcphdr ≤ o
              ∧ o < sizeof_ether_header + sizeof_ip + sizeof_tcphdr
                  + MPTCP_SUB_LEN_CAPABLE_SYN)) := by
  rw [init_ip_len, init_th_off, make_written]
  simp only [List.nil_append]
  refine ⟨rfl, by decide, by decide, by decide, by decide, by decide, by decide, ?_⟩
  intro o
  simp only [sizeof_ether_header, sizeof_ip, sizeof_tcphdr, MPTCP_SUB_LEN_CAPABLE_SYN,
    List.nil_append, List.mem_cons, List.mem_singleton, List.not_mem_nil, or_false]
  omega

/-! ## Conservation over consecutive ticks -/

theorem export_internal (zconf : state_conf) (zsend : state_send) (zrecv : state_recv)
    (now0 now1 : Dbl) (intrnl : int_status_t) (exp : export_status_t) (it : iterator_t) :
    (export_stats zconf zsend zrecv now0 now1 intrnl exp it).1
      = { last_now := now0,
          last_sent := u32 it.sent,
          last_send_failures := u32 zsend.sendto_failures,
          last_recv_net_success := u32 zrecv.success_unique,
          last_recv_app_success := u32 zrecv.app_success_unique,
          last_recv_total := u32 zrecv.pcap_recv,
          last_pcap_drop := u32 (u32 zrecv.pcap_drop + u32 zrecv.pcap_ifdrop) } := by
  by_cases h1 : 0 ≤ zconf.app_success_index <;> by_cases h2 : u32 it.sent = 0 <;>
    by_cases h3 : zsend.complete = 0 <;> simp [export_stats, h1, h2, h3]

theorem u32_u32 (x : Nat) : u32 (u32 x) = u32 x := by
  simp only [u32]
  omega

theorem recv_rate_times_delta (cur prev : Nat) (delta : Dbl)
    (hpos : Dbl.isFinitePos delta = true) (hle : u32 prev ≤ u32 cur) :
    Dbl.mul (Dbl.div (Dbl.ofNat (u32sub cur prev)) delta) delta
      = Dbl.fin ((u32 cur : ℚ) - (u32 prev : ℚ)) := by
  cases delta with
  | fin d =>
    have hd : 0 < d := by simpa [Dbl.isFinitePos] using hpos
    have hne : d ≠ 0 := ne_of_gt hd
    rw [← u32sub_of_le cur prev hle]
    simp [Dbl.div, Dbl.mul, Dbl.ofNat, hne]
  | pinf => simp [Dbl.isFinitePos] at hpos
  | ninf => simp [Dbl.isFinitePos] at hpos
  | nan => simp [Dbl.isFinitePos] at hpos

theorem monitor_ticks_mass (zconf : state_conf) (ticks : List tick_obs) :
    ∀ (intrnl : int_status_t) (exp : export_status_t),
      ticks_advance intrnl.last_now intrnl.last_recv_net_success ticks →
      recv_rate_mass (monitor_ticks zconf intrnl exp ticks).1
          = Dbl.fin ((u32 (last_success_count intrnl.last_recv_net_success ticks) : ℚ)
              - (u32 intrnl.last_recv_net_success : ℚ))
        ∧ ((monitor_ticks zconf intrnl exp ticks).2.last_recv_net_success
            = last_success_count intrnl.last_recv_net_success ticks) := by
  induction ticks with
  | nil =>
    intro intrnl exp _
    simp [monitor_ticks, recv_rate_mass, last_success_count]
  | cons t ts ih =>
    intro intrnl exp h
    obtain ⟨hpos, hle, hrest⟩ := h
    have hint := export_internal zconf t.zsend t.zrecv t.now0 t.now1 intrnl exp t.it
    have hnow : (export_stats zconf t.zsend t.zrecv t.now0 t.now1 intrnl exp t.it).1.last_now
        = t.now0 := by rw [hint]
    have hcnt : (export_stats zconf t.zsend t.zrecv t.now0 t.now1 intrnl exp
        t.it).1.last_recv_net_success = u32 t.zrecv.success_unique := by rw [hint]
    have hrest2 : ticks_advance
        (export_stats zconf t.zsend t.zrecv t.now0 t.now1 intrnl exp t.it).1.last_now
        (export_stats zconf t.zsend t.zrecv t.now0 t.now1 intrnl exp
          t.it).1.last_recv_net_success ts := by
      rw [hnow, hcnt]
      exact hrest
    obtain ⟨ih1, ih2⟩ := ih _
      (export_stats zconf t.zsend t.zrecv t.now0 t.now1 intrnl exp t.it).2 hrest2
    rw [hcnt] at ih1 ih2
    have hle2 : u32 intrnl.last_recv_net_success ≤ u32 (u32 t.zrecv.success_unique) := by
      rw [u32_u32]
      exact hle
    have hfirst := recv_rate_times_delta (u32 t.zrecv.success_unique)
      intrnl.last_recv_net_success (Dbl.sub t.now0 intrnl.last_now) hpos hle2
    refine ⟨?_, ?_⟩
    · simp only [monitor_ticks, recv_rate_mass, last_success_count]
      rw [ih1, export_recv_rate, hfirst]
      simp only [Dbl.add, u32_u32]
      congr 1
      ring
    · simp only [monitor_ticks, last_success_count]
      exact ih2

theorem last_success_count_getLast (ticks : List tick_obs) :
    ∀ (prev : Nat) (hn : ticks ≠ []),
      last_success_count prev ticks = u32 (ticks.getLast hn).zrecv.success_unique := by
  induction ticks with
  | nil => intro prev hn; exact absurd rfl hn
  | cons t ts ih =>
    intro prev hn
    cases ts with
    | nil => simp [last_success_count]
    | cons t2 ts2 =>
      have h2 : t2 :: ts2 ≠ [] := List.cons_ne_nil _ _
      have e := ih (u32 t.zrecv.success_unique) h2
      simp only [last_success_count] at e ⊢
      rw [e, List.getLast_cons h2]

theorem monitor_ticks_length (zconf : state_conf) (ticks : List tick_obs) :
    ∀ (intrnl : int_status_t) (exp : export_status_t),
      (monitor_ticks zconf intrnl exp ticks).1.length = ticks.length := by
  induction ticks with
  | nil => intro intrnl exp; simp [monitor_ticks]
  | cons t ts ih =>
    intro intrnl exp
    simp only [monitor_ticks, List.length_cons, ih]

/-- C11: for every sequence of `n >= 1` consecutive `export_stats` ticks with
finite positive deltas and a unique-success counter that does not decrease (no
32-bit wrap), the sum over the ticks of `recv_rate * delta` is the counter at
the last tick minus the value that the internal snapshot held before the first
tick, one product per tick; the internal snapshot after the last tick holds
that last counter value; and each tick overwrites `last_now` and every
`last_*` member with the time and totals it has just observed. -/
theorem C11_rates_conserve_responses (zconf : state_conf) (intrnl : int_status_t)
    (exp : export_status_t) (ticks : List tick_obs) (hn : ticks ≠ [])
    (hadv : ticks_advance intrnl.last_now intrnl.last_recv_net_success ticks) :
    recv_rate_mass (monitor_ticks zconf intrnl exp ticks).1
        = Dbl.fin ((u32 (ticks.getLast hn).zrecv.success_unique : ℚ)
            - (u32 intrnl.last_recv_net_success : ℚ))
      ∧ (monitor_ticks zconf intrnl exp ticks).1.length = ticks.length
      ∧ (monitor_ticks zconf intrnl exp ticks).2.last_recv_net_success
          = u32 (ticks.getLast hn).zrecv.success_unique
      ∧ (∀ (zsend : state_send) (zrecv : state_recv) (now0 now1 : Dbl) (i : int_status_t)
            (e : export_status_t) (it : iterator_t),
          (export_stats zconf zsend zrecv now0 now1 i e it).1
            = { last_now := now0,
                last_sent := (export_stats zconf zsend zrecv now0 now1 i e it).2.total_sent,
                last_send_failures :=
                  (export_stats zconf zsend zrecv now0 now1 i e it).2.fail_total,
                last_recv_net_success :=
                  (export_stats zconf zsend zrecv now0 now1 i e it).2.recv_success_unique,
                last_recv_app_success :=
                  (export_stats zconf zsend zrecv now0 now1 i e it).2.app_recv_success_unique,
                last_recv_total := (export_stats zconf zsend zrecv now0 now1 i e it).2.total_recv,
                last_pcap_drop :=
                  (export_stats zconf zsend zrecv now0 now1 i e it).2.pcap_drop_total }
            ∧ (export_stats zconf zsend zrecv now0 now1 i e it).2.recv_success_unique
              = u32 zrecv.success_unique) := by
  obtain ⟨h1, h2⟩ := monitor_ticks_mass zconf ticks intrnl exp hadv
  have hl := last_success_count_getLast ticks intrnl.last_recv_net_success hn
  refine ⟨?_, monitor_ticks_length zconf ticks intrnl exp, ?_, ?_⟩
  · rw [h1, hl, u32_u32]
  · rw [h2, hl]
  · intro zsend zrecv now0 now1 i e it
    by_cases c1 : 0 ≤ zconf.app_success_index <;> by_cases c2 : u32 it.sent = 0 <;>
      by_cases c3 : zsend.complete = 0 <;> simp [export_stats, c1, c2, c3]

/-- C11 witness: two ticks at times 1 and 3 after a snapshot taken at time 0
with 5 unique successes; the counter reads 7 and then 60. -/
theorem C11_rates_conserve_responses_witness :
    [sampleTick1, sampleTick2] ≠ []
      ∧ ticks_advance sampleInternal.last_now sampleInternal.last_recv_net_success
          [sampleTick1, sampleTick2]
      ∧ recv_rate_mass
          (monitor_ticks sampleConf sampleInternal zeroExport [sampleTick1, sampleTick2]).1
        = Dbl.fin ((u32 ([sampleTick1, sampleTick2].getLast
              (List.cons_ne_nil _ _)).zrecv.success_unique : ℚ)
            - (u32 sampleInternal.last_recv_net_success : ℚ)) :=
  ⟨List.cons_ne_nil _ _,
    by
      simp [ticks_advance, sampleTick1, sampleTick2, sampleInternal, sampleRecv, sampleRecvLow,
        Dbl.isFinitePos, Dbl.sub, Dbl.neg, Dbl.add, u32],
    (C11_rates_conserve_responses sampleConf sampleInternal zeroExport
      [sampleTick1, sampleTick2] (List.cons_ne_nil _ _)
      (by
        simp [ticks_advance, sampleTick1, sampleTick2, sampleInternal, sampleRecv,
          sampleRecvLow, Dbl.isFinitePos, Dbl.sub, Dbl.neg, Dbl.add, u32])).1⟩

end ZMap
